import Mathlib

/-!
# Event ingestion and notification dispatch of the sotsukenn server

A shallow embedding of `go/services/event_service.go`,
`go/services/notification_service.go`, `go/services/firebase_client.go`,
`go/services/mqtt_client.go`, `go/services/monitoring_service.go`,
`go/handlers/auth.go`, `go/models/token.go` and the models they use, followed
by the properties proved about them.

Modelling conventions

* A database table is the list of its live rows in primary-key order (oldest
  row first).  The bookkeeping columns `id`, `created_at`, `updated_at` are not
  represented; the position in the list stands for the primary key.
* `float64` values are only copied and compared by the embedded code, never
  computed with, and JSON decoding yields finite values only, so they are
  represented by rationals.
* A database statement may fail.  Which statements of one call fail is an
  explicit argument (`DbFaults`), so that every error branch of the source is
  reachable in the embedding.
* Go's `error` result is an `Option`: `none` is `nil`.
-/

namespace Sotsukenn

/-! ## models/frigate_event.go -/

/-- A value that `encoding/json` stores in an `interface{}` field:
`nil`, `string`, `float64`, `bool`, `[]interface{}` or `map[string]interface{}`. -/
inductive JSONValue where
  | null
  | str (s : String)
  | num (x : ℚ)
  | bool (b : Bool)
  | arr (xs : List JSONValue)
  | obj (kvs : List (String × JSONValue))

/-- The fields of `models.EventData` that the embedded services read. -/
structure EventData where
  ID : String
  Camera : String
  Label : String
  SubLabel : JSONValue
  TopScore : ℚ
  StartTime : ℚ
  EndTime : Option ℚ
  Score : ℚ
  Active : Bool
  Stationary : Bool

/-- The record `models.FrigateEvent`; the Go field `Type` is spelled `type` here. -/
structure FrigateEvent where
  type : String
  Before : EventData
  After : EventData

def EventTypeNew : String := "new"

def EventTypeUpdate : String := "update"

def EventTypeEnd : String := "end"

/-! ## models/detection_event.go -/

/-- One row of table `detection_events` (`models.DetectionEvent`). -/
structure DetectionEvent where
  EventID : String
  Camera : String
  Label : String
  SubLabel : String
  StartTime : ℚ
  EndTime : Option ℚ
  IsCurrent : Bool
  TopScore : ℚ
  Score : ℚ
  Active : Bool
  Stationary : Bool
deriving DecidableEq

/-- The table `detection_events`: its rows, oldest first. -/
abbrev EventStore := List DetectionEvent

/-! ## services/event_service.go -/

/-- Which database statements of one `SaveDetectionEvent` call report an error. -/
structure DbFaults where
  /-- the existence query fails with an error other than `ErrRecordNotFound` -/
  lookup : Bool
  /-- the demotion `UPDATE` inside the transaction fails -/
  update : Bool
  /-- the `INSERT` fails (a failed `Begin` surfaces here as well) -/
  create : Bool
  /-- the `COMMIT` fails; the engine then discards the transaction -/
  commit : Bool
deriving DecidableEq

/-- Every statement succeeds. -/
def noFaults : DbFaults := ⟨false, false, false, false⟩

/-- The three error results of `SaveDetectionEvent`. -/
inductive SaveError where
  | checkExisting
  | saveEvent
  | commit
deriving DecidableEq

/-- The `sub_label` normalisation written inline in `SaveDetectionEvent`
(lines 38-50): a string is kept, an array contributes its first element when
that is a string, everything else gives the empty string. -/
def parseSubLabel : JSONValue → String
  | .str v => v
  | .arr (.str s :: _) => s
  | _ => ""

/-- The query `Where("event_id = ?", id).First(&existing)` finds a row. -/
def eventExists (s : EventStore) (id : String) : Bool :=
  s.any fun r => decide (r.EventID = id)

/-- The row matches `camera = ? AND label = ? AND is_current = true`. -/
def isCurrentOf (camera label : String) (r : DetectionEvent) : Bool :=
  decide (r.Camera = camera) && decide (r.Label = label) && r.IsCurrent

/-- The statement `Where("camera = ? AND label = ? AND is_current = ?", camera,
label, true).Update("is_current", false)`. -/
def demoteCurrent (camera label : String) (s : EventStore) : EventStore :=
  s.map fun r => if isCurrentOf camera label r then { r with IsCurrent := false } else r

/-- The record built at lines 53-65. -/
def newDetectionEvent (event : FrigateEvent) : DetectionEvent :=
  { EventID := event.After.ID
    Camera := event.After.Camera
    Label := event.After.Label
    SubLabel := parseSubLabel event.After.SubLabel
    StartTime := event.After.StartTime
    EndTime := event.After.EndTime
    TopScore := event.After.TopScore
    Score := event.After.Score
    Active := event.After.Active
    Stationary := event.After.Stationary
    IsCurrent := true }

/-- The method `EventService.SaveDetectionEvent`: the returned error and the
table after the call.  The result of the demotion `UPDATE` is not inspected by
the source, so a failed `UPDATE` only skips the demotion; a failed `INSERT`
rolls the transaction back; a failed `COMMIT` leaves the table as it was. -/
def SaveDetectionEvent (f : DbFaults) (s : EventStore) (event : FrigateEvent) :
    Option SaveError × EventStore :=
  if event.type ≠ EventTypeNew then (none, s)
  else if f.lookup then (some SaveError.checkExisting, s)
  else if eventExists s event.After.ID then (none, s)
  else
    let detectionEvent := newDetectionEvent event
    let tx := if f.update then s else demoteCurrent event.After.Camera event.After.Label s
    if f.create then (some SaveError.saveEvent, s)
    else if f.commit then (some SaveError.commit, s)
    else (none, tx ++ [detectionEvent])

/-- Events handled one after the other, each call with its own fault pattern. -/
def saveAll (s : EventStore) : List (DbFaults × FrigateEvent) → EventStore
  | [] => s
  | (f, e) :: rest => saveAll (SaveDetectionEvent f s e).2 rest

/-- The first row of `ORDER BY start_time DESC` (ties: the oldest row, as
`First` adds the primary key to the ordering). -/
def firstByStartTimeDesc : List DetectionEvent → Option DetectionEvent
  | [] => none
  | r :: rs =>
    match firstByStartTimeDesc rs with
    | none => some r
    | some m => if r.StartTime < m.StartTime then some m else some r

/-- The row passes the filters of `GetLastEventTime`: `is_current = true`, and
each of camera and label only when the argument is not the empty string. -/
def matchesLastEventFilter (camera label : String) (r : DetectionEvent) : Bool :=
  r.IsCurrent && (decide (camera = "") || decide (r.Camera = camera)) &&
    (decide (label = "") || decide (r.Label = label))

/-- Error of a read-only query. -/
inductive QueryError where
  | db
deriving DecidableEq

/-- The method `EventService.GetLastEventTime`; `fault` says that the query
fails with an error other than `ErrRecordNotFound`. -/
def GetLastEventTime (fault : Bool) (s : EventStore) (camera label : String) :
    ℚ × Option QueryError :=
  if fault then (0, some QueryError.db)
  else
    match firstByStartTimeDesc (s.filter (matchesLastEventFilter camera label)) with
    | none => (0, none)
    | some event => (event.StartTime, none)

/-- Lexicographic comparison of two texts by code point, which is the order of
their UTF-8 encodings (the `BINARY` collation behind `ORDER BY sub_label ASC`). -/
def textLe (a b : String) : Bool := decide (a.data ≤ b.data)

/-- Insert into an ascending list. -/
def insertAsc (a : String) : List String → List String
  | [] => [a]
  | b :: bs => if textLe a b then a :: b :: bs else b :: insertAsc a bs

/-- The clause `ORDER BY sub_label ASC`. -/
def orderAsc : List String → List String
  | [] => []
  | a :: as => insertAsc a (orderAsc as)

/-- The row passes `label = 'person' AND sub_label != '' AND sub_label IS NOT NULL`
(the column is a Go `string`, so it is never `NULL`). -/
def isNamedPerson (r : DetectionEvent) : Bool :=
  decide (r.Label = "person") && decide (r.SubLabel ≠ "")

/-- The method `EventService.GetPersonDetectionCount`; `countFault` and
`pluckFault` say that the first, respectively second, query fails. -/
def GetPersonDetectionCount (countFault pluckFault : Bool) (s : EventStore) :
    Nat × List String × Option QueryError :=
  if countFault then (0, [], some QueryError.db)
  else
    let count := (s.filter fun r => decide (r.Label = "person")).length
    if pluckFault then (0, [], some QueryError.db)
    else
      let subLabels := orderAsc ((s.filter isNamedPerson).map fun r => r.SubLabel).dedup
      (count, subLabels, none)

/-! ## models/fcm_token.go -/

/-- One live row of table `fcm_tokens` (`models.FCMToken`). -/
structure FCMToken where
  UserID : Nat
  Token : String
  DeviceName : String
  IsActive : Bool
deriving DecidableEq

/-- The table `fcm_tokens`: its rows that are not soft-deleted, oldest first. -/
abbrev FCMTokenTable := List FCMToken

/-! ## services/firebase_client.go -/

/-- The varying part of a `messaging.Message`; the Android and APNS settings
are the same constants in every message. -/
structure Message where
  Token : String
  Title : String
  Body : String
  Data : List (String × String)
deriving DecidableEq

/-- Answer of the push transport to one `Send`: accepted, refused because the
registration can never receive messages again, or failed for another reason. -/
inductive SendResult where
  | sent
  | permanentlyInvalid
  | transientFailure
deriving DecidableEq

/-- The client returned by `app.Messaging`: its answer to each message. -/
structure MessagingClient where
  Send : Message → SendResult

/-- A `firebase.App`; `Messaging` is `none` when `app.Messaging(ctx)` fails. -/
structure FirebaseApp where
  Messaging : Option MessagingClient

/-- The record `FirebaseClient`; `app` is `none` for a nil app. -/
structure FirebaseClient where
  app : Option FirebaseApp

/-- The error results of `SendMulticastNotification`. -/
inductive FirebaseError where
  | notInitialized
  | noTokens
  | messagingClient
deriving DecidableEq

/-- The loop of `SendMulticastNotification` (lines 157-200): the `Send` calls
made, in order, and the collected `invalidTokens`, or `none` when the loop
stops in a run-time panic.  Every failed send adds the token to
`invalidTokens`; the log line of a failed send takes `token[:20]`, which is out
of range for a token of fewer than 20 bytes. -/
def sendLoop (client : MessagingClient) (title body : String) (data : List (String × String)) :
    List String → List Message × Option (List String)
  | [] => ([], some [])
  | token :: rest =>
    let message : Message := { Token := token, Title := title, Body := body, Data := data }
    if client.Send message = SendResult.sent then
      ((sendLoop client title body data rest).1.cons message,
        (sendLoop client title body data rest).2)
    else if token.utf8ByteSize < 20 then ([message], none)
    else
      ((sendLoop client title body data rest).1.cons message,
        (sendLoop client title body data rest).2.map (List.cons token))

/-- What one call of `SendMulticastNotification` did. -/
structure MulticastRun where
  /-- the `Send` calls made, in order -/
  attempted : List Message
  /-- the call ended in a run-time panic instead of returning -/
  panicked : Bool
  /-- the returned list -/
  invalidTokens : List String
  /-- the returned error -/
  err : Option FirebaseError
deriving DecidableEq

/-- The method `FirebaseClient.SendMulticastNotification`; the receiver is
`none` for a nil pointer. -/
def SendMulticastNotification (fc : Option FirebaseClient) (tokens : List String)
    (title body : String) (data : List (String × String)) : MulticastRun :=
  match fc with
  | none => ⟨[], false, [], some FirebaseError.notInitialized⟩
  | some c =>
    match c.app with
    | none => ⟨[], false, [], some FirebaseError.notInitialized⟩
    | some app =>
      if tokens.length = 0 then ⟨[], false, [], some FirebaseError.noTokens⟩
      else
        match app.Messaging with
        | none => ⟨[], false, [], some FirebaseError.messagingClient⟩
        | some messagingClient =>
          match sendLoop messagingClient title body data tokens with
          | (attempted, none) => ⟨attempted, true, [], none⟩
          | (attempted, some invalidTokens) => ⟨attempted, false, invalidTokens, none⟩

/-! ## services/notification_service.go -/

/-- The environment variables read by `ShouldSendNotification`. -/
structure Env where
  FCM_NOTIFICATIONS_ENABLED : String
  FCM_NOTIFY_ON_EVENT_TYPE : String
  FCM_NOTIFY_LABELS : String

/-- The predicate `unicode.IsSpace`. -/
def isSpace (c : Char) : Bool :=
  let n := c.toNat
  (9 ≤ n && n ≤ 13) || n = 32 || n = 0x85 || n = 0xA0 || n = 0x1680 ||
    (0x2000 ≤ n && n ≤ 0x200A) || n = 0x2028 || n = 0x2029 || n = 0x202F ||
    n = 0x205F || n = 0x3000

/-- The function `strings.TrimSpace`. -/
def TrimSpace (s : String) : String :=
  String.mk ((s.data.dropWhile isSpace).reverse.dropWhile isSpace).reverse

/-- Pieces of a text between commas. -/
def splitComma : List Char → List (List Char)
  | [] => [[]]
  | c :: cs =>
    if c = Char.ofNat 44 then [] :: splitComma cs
    else
      match splitComma cs with
      | [] => [[c]]
      | w :: ws => (c :: w) :: ws

/-- The call `strings.Split(s, ",")`. -/
def Split (s : String) : List String :=
  (splitComma s.data).map String.mk

/-- The method `NotificationService.ShouldSendNotification`. -/
def ShouldSendNotification (env : Env) (event : FrigateEvent) : Bool :=
  if env.FCM_NOTIFICATIONS_ENABLED ≠ "true" then false
  else
    let allowedTypes := Split env.FCM_NOTIFY_ON_EVENT_TYPE
    let typeAllowed := allowedTypes.any fun t => decide (TrimSpace t = event.type)
    if !typeAllowed then false
    else
      let allowedLabels := Split env.FCM_NOTIFY_LABELS
      let labelAllowed := allowedLabels.any fun l => decide (TrimSpace l = event.After.Label)
      if !labelAllowed then false
      else true

/-- The method `NotificationService.extractPersonName`; the `[]string` case of
the source cannot arise from a decoded JSON value. -/
def extractPersonName : JSONValue → String
  | .arr (.str name :: _) => name
  | .str v => v
  | _ => ""

/-- Title and body chosen by `GenerateNotificationContent` from the person name
(empty when there is none), the event type, the camera and the label. -/
def titleAndBody (personName eventType camera label : String) : String × String :=
  if personName ≠ "" then
    if eventType = EventTypeNew then ("检测到人脸", camera ++ " 检测到：" ++ personName)
    else if eventType = EventTypeEnd then (personName ++ " 已离开", camera ++ " 检测结束")
    else (personName, camera ++ " " ++ label)
  else
    if eventType = EventTypeNew then ("检测到人", camera ++ " 检测到：" ++ label)
    else if eventType = EventTypeEnd then ("人已离开", camera ++ " 检测结束")
    else ("人员更新", camera ++ " " ++ label)

/-- The method `NotificationService.GenerateNotificationContent`: title, body
and data.  `FormatFloat x` stands for `strconv.FormatFloat(x, 'f', 0, 64)`. -/
def GenerateNotificationContent (FormatFloat : ℚ → String) (event : FrigateEvent) :
    String × String × List (String × String) :=
  let camera := event.After.Camera
  let label := event.After.Label
  let eventType := event.type
  let tb := titleAndBody (extractPersonName event.After.SubLabel) eventType camera label
  let data := [("camera", camera), ("label", label), ("event_id", event.After.ID),
    ("event_type", eventType), ("timestamp", FormatFloat event.After.StartTime)]
  (tb.1, tb.2, data)

/-- The map `debounceCache`: the time of the last send per key. Times and
durations are whole nanoseconds. -/
abbrev DebounceCache := String → Option Int

/-- The mutable part of `NotificationService` apart from the database. -/
structure NotificationService where
  firebaseClient : Option FirebaseClient
  debounceCache : DebounceCache
  debounceDuration : Int

/-- The key built at line 167 of `SendNotification`. -/
def debounceKey (event : FrigateEvent) : String :=
  event.After.ID ++ "_" ++ event.type

/-- The method `NotificationService.isDebounced`, the clock reading `now`. -/
def isDebounced (ns : NotificationService) (now : Int) (key : String) : Bool :=
  match ns.debounceCache key with
  | some lastSent => decide (now - lastSent < ns.debounceDuration)
  | none => false

/-- The method `NotificationService.markAsSent`, the clock reading `now`. The
sweep it starts is `cleanDebounceCache`, run at a later time. -/
def markAsSent (ns : NotificationService) (now : Int) (key : String) : NotificationService :=
  { ns with debounceCache := fun k => if k = key then some now else ns.debounceCache k }

/-- The method `NotificationService.cleanDebounceCache` once its sleep is over,
the clock reading `now`. -/
def cleanDebounceCache (ns : NotificationService) (now : Int) : NotificationService :=
  { ns with debounceCache := fun k =>
      match ns.debounceCache k with
      | some lastSent => if now - lastSent > ns.debounceDuration then none else some lastSent
      | none => none }

/-- Sweeps run one after the other at the given times. -/
def sweepAll (ns : NotificationService) : List Int → NotificationService
  | [] => ns
  | t :: ts => sweepAll (cleanDebounceCache ns t) ts

/-- The error results of `NotificationService.SendNotification`. -/
inductive NotifyError where
  | db
  | firebase (e : FirebaseError)
deriving DecidableEq

/-- What surrounds one call of `SendNotification`: the two clock readings and
which of its two database statements fail. -/
structure CallContext where
  /-- the clock read by `time.Since` in `isDebounced` -/
  now : Int
  /-- the clock read by `time.Now` in `markAsSent` -/
  sentAt : Int
  /-- the query for the active tokens fails -/
  findFault : Bool
  /-- the `DELETE` of the invalid tokens fails (the source only logs this) -/
  deleteFault : Bool

/-- What one call of `SendNotification` did. -/
structure NotifyRun where
  /-- the returned error -/
  err : Option NotifyError
  /-- the call ended in a run-time panic instead of returning -/
  panicked : Bool
  /-- the service after the call -/
  ns : NotificationService
  /-- table `fcm_tokens` after the call -/
  table : FCMTokenTable
  /-- the `Send` calls made, in order -/
  attempted : List Message

/-- The method `NotificationService.SendNotification`. -/
def SendNotification (env : Env) (FormatFloat : ℚ → String) (ctx : CallContext)
    (ns : NotificationService) (table : FCMTokenTable) (event : FrigateEvent) : NotifyRun :=
  if !ShouldSendNotification env event then ⟨none, false, ns, table, []⟩
  else
    let key := debounceKey event
    if isDebounced ns ctx.now key then ⟨none, false, ns, table, []⟩
    else
      let content := GenerateNotificationContent FormatFloat event
      if ctx.findFault then ⟨some NotifyError.db, false, ns, table, []⟩
      else
        let tokens := table.filter fun t => t.IsActive
        if tokens.length = 0 then ⟨none, false, ns, table, []⟩
        else
          let tokenList := tokens.map fun t => t.Token
          let run := SendMulticastNotification ns.firebaseClient tokenList
            content.1 content.2.1 content.2.2
          if run.panicked then ⟨none, true, ns, table, run.attempted⟩
          else
            match run.err with
            | some e => ⟨some (NotifyError.firebase e), false, ns, table, run.attempted⟩
            | none =>
              let table2 :=
                if run.invalidTokens.length > 0 && !ctx.deleteFault then
                  table.filter fun t => !decide (t.Token ∈ run.invalidTokens)
                else table
              ⟨none, false, markAsSent ns ctx.sentAt key, table2, run.attempted⟩

/-- Two calls of `SendNotification` on one service: the first on `table1`, then
the sweeps of the debounce cache that run at the times `sweeps`, then the
second call on `table2`. -/
def twoCalls (env : Env) (FormatFloat : ℚ → String) (ctx1 ctx2 : CallContext)
    (sweeps : List Int) (ns : NotificationService) (table1 table2 : FCMTokenTable)
    (e1 e2 : FrigateEvent) : NotifyRun × NotifyRun :=
  let first := SendNotification env FormatFloat ctx1 ns table1 e1
  (first, SendNotification env FormatFloat ctx2 (sweepAll first.ns sweeps) table2 e2)

/-- No (camera, label) pair has two rows with `is_current = true`. -/
def AtMostOneCurrent (s : EventStore) : Prop :=
  ∀ camera label : String, (s.filter (isCurrentOf camera label)).length ≤ 1

/-- Exactly one row of the pair is current, and it carries the id of the last
event of the sequence. -/
def CurrentIsLast (s : EventStore) (camera label : String) (events : List FrigateEvent) :
    Prop :=
  ∃ last, events.getLast? = some last ∧
    ∃ r, s.filter (isCurrentOf camera label) = [r] ∧ r.EventID = last.After.ID

/-! ## Sample data -/

/-- Event snapshot of a person seen by camera "front". -/
def frontPerson (id : String) (start : ℚ) : EventData :=
  { ID := id, Camera := "front", Label := "person", SubLabel := JSONValue.null,
    TopScore := 0, StartTime := start, EndTime := none, Score := 0,
    Active := true, Stationary := false }

/-- The message `{id:"evt1", type:"new", after:{camera:"front", label:"person", start_time:1000}}`. -/
def evt1 : FrigateEvent :=
  { type := "new", Before := frontPerson "evt1" 1000, After := frontPerson "evt1" 1000 }

/-- The message `{id:"evt2", type:"new", after:{camera:"front", label:"person", start_time:1005}}`. -/
def evt2 : FrigateEvent :=
  { type := "new", Before := frontPerson "evt2" 1005, After := frontPerson "evt2" 1005 }

/-- The "update" message that follows `evt1`. -/
def evt1Update : FrigateEvent := { evt1 with type := "update" }

/-- The table after `evt1` was stored. -/
def storeEvt1 : EventStore := [newDetectionEvent evt1]

/-- The message of `evt1` with a recognised face: `sub_label` is
`["John Smith", 0.79]`. -/
def evt1Named : FrigateEvent :=
  { evt1 with
    After := { evt1.After with
      SubLabel := JSONValue.arr [JSONValue.str "John Smith", JSONValue.num (79 / 100)] } }

/-- Only the demotion `UPDATE` fails. -/
def updateFault : DbFaults := ⟨false, true, false, false⟩

/-- The "end" message that closes `evt1`. -/
def evt1End : FrigateEvent := { evt1 with type := "end" }

/-- Notifications enabled for new and end events of persons and cars. -/
def sampleEnv : Env :=
  { FCM_NOTIFICATIONS_ENABLED := "true", FCM_NOTIFY_ON_EVENT_TYPE := "new, end",
    FCM_NOTIFY_LABELS := "person,car" }

/-- A transport that accepts every message. -/
def acceptAll : MessagingClient := { Send := fun _ => SendResult.sent }

/-- A service with a configured transport, an empty debounce cache and the
default window of 30 seconds. -/
def sampleService : NotificationService :=
  { firebaseClient := some ⟨some ⟨some acceptAll⟩⟩, debounceCache := fun _ => none,
    debounceDuration := 30000000000 }

/-- One active registration. -/
def sampleTable : FCMTokenTable :=
  [{ UserID := 1, Token := "fcm-token-0123456789-abcdef", DeviceName := "Pixel 6",
     IsActive := true }]

/-- Formatting of the whole-second timestamps of the sample events. -/
def sampleFormat (x : ℚ) : String := toString x.floor

/-- First call: clock at 0 when checked, at 1 second when marked as sent. -/
def firstCallContext : CallContext := ⟨0, 1000000000, false, false⟩

/-- A second call 10 seconds after the first send. -/
def callAfterTenSeconds : CallContext := ⟨11000000000, 12000000000, false, false⟩

/-- A second call 40 seconds after the first send. -/
def callAfterFortySeconds : CallContext := ⟨41000000000, 42000000000, false, false⟩

/-! ## Vocabulary for the push dispatcher -/

/-- The message that `SendMulticastNotification` builds for one token. -/
def messageFor (title body : String) (data : List (String × String)) (token : String) :
    Message :=
  { Token := token, Title := title, Body := body, Data := data }

/-- The send to this token fails, for whatever reason. -/
def sendFails (client : MessagingClient) (title body : String) (data : List (String × String))
    (token : String) : Bool :=
  decide (client.Send (messageFor title body data token) ≠ SendResult.sent)

/-- The send to this token fails and the token has fewer than 20 bytes. -/
def failsShort (client : MessagingClient) (title body : String) (data : List (String × String))
    (token : String) : Bool :=
  sendFails client title body data token && decide (token.utf8ByteSize < 20)

/-- A configured `FirebaseClient` over the given transport. -/
def configured (client : MessagingClient) : Option FirebaseClient :=
  some ⟨some ⟨some client⟩⟩

/-- A registration of 11 bytes. -/
def shortToken : String := "short-token"

/-- A registration of 27 bytes. -/
def longToken : String := "fcm-token-0123456789-abcdef"

/-- A transport that refuses the short registration as permanently invalid. -/
def rejectShort : MessagingClient :=
  { Send := fun m => if m.Token = shortToken then SendResult.permanentlyInvalid
                     else SendResult.sent }

/-- A transport that is out of reach: every send fails for a transient reason. -/
def outOfReach : MessagingClient := { Send := fun _ => SendResult.transientFailure }

/-- The sample service over the transport that is out of reach. -/
def outOfReachService : NotificationService :=
  { sampleService with firebaseClient := configured outOfReach }

/-- The row is an active registration whose send fails, for whatever reason,
with the content generated for this event. -/
def isFailedRegistration (client : MessagingClient) (FormatFloat : ℚ → String)
    (event : FrigateEvent) (t : FCMToken) : Bool :=
  t.IsActive && sendFails client (GenerateNotificationContent FormatFloat event).1
    (GenerateNotificationContent FormatFloat event).2.1
    (GenerateNotificationContent FormatFloat event).2.2 t.Token

/-- The row is an active registration that the transport reports as permanently
invalid, with the content generated for this event. -/
def isReportedInvalid (client : MessagingClient) (FormatFloat : ℚ → String)
    (event : FrigateEvent) (t : FCMToken) : Bool :=
  t.IsActive && decide (client.Send
    (messageFor (GenerateNotificationContent FormatFloat event).1
      (GenerateNotificationContent FormatFloat event).2.1
      (GenerateNotificationContent FormatFloat event).2.2 t.Token)
    = SendResult.permanentlyInvalid)

/-- A second registration of more than 20 bytes. -/
def otherToken : String := "fcm-token-9876543210-zyxwvu"

/-- A transport that reports `otherToken` as permanently invalid. -/
def rejectOther : MessagingClient :=
  { Send := fun m => if m.Token = otherToken then SendResult.permanentlyInvalid
                     else SendResult.sent }

/-- The sample service over the transport that refuses `otherToken`. -/
def rejectOtherService : NotificationService :=
  { sampleService with firebaseClient := configured rejectOther }

/-- Two active registrations and an inactive one. -/
def threeRegistrations : FCMTokenTable :=
  [{ UserID := 1, Token := longToken, DeviceName := "Pixel 6", IsActive := true },
   { UserID := 2, Token := otherToken, DeviceName := "iPhone 13", IsActive := true },
   { UserID := 2, Token := "fcm-token-5555555555-retired", DeviceName := "iPhone 8",
     IsActive := false }]

/-! ## models/token.go -/

/-- The record `models.TokenInfo`; `ExpiresAt` in nanoseconds. -/
structure TokenInfo where
  Token : String
  ExpiresAt : Int
  UserID : Nat
deriving DecidableEq

/-- The record `models.TokenStore`: the map `tokens`.  An entry is the record
behind the stored pointer; the one caller of `Set` stores the address of a
fresh record, never nil. -/
structure TokenStore where
  tokens : String → Option TokenInfo

/-- The constructor `NewTokenStore`. -/
def NewTokenStore : TokenStore := ⟨fun _ => none⟩

/-- The method `TokenStore.Set`. -/
def TokenStore.Set (ts : TokenStore) (token : String) (info : TokenInfo) : TokenStore :=
  ⟨fun k => if k = token then some info else ts.tokens k⟩

/-- The method `TokenStore.Get`: the entry, or `none` when `exists` is false. -/
def TokenStore.Get (ts : TokenStore) (token : String) : Option TokenInfo :=
  ts.tokens token

/-- The method `TokenStore.Delete`. -/
def TokenStore.Delete (ts : TokenStore) (token : String) : TokenStore :=
  ⟨fun k => if k = token then none else ts.tokens k⟩

/-- The method `TokenStore.CleanExpired`, the clock reading `now`:
`now.After(info.ExpiresAt)` deletes the entry. -/
def TokenStore.CleanExpired (ts : TokenStore) (now : Int) : TokenStore :=
  ⟨fun k =>
    match ts.tokens k with
    | some info => if info.ExpiresAt < now then none else some info
    | none => none⟩

/-! ## models/frigate_connect.go -/

/-- One row of table `frigate_connects` (`models.FrigateConnect`);
`LastVerifiedAt` in nanoseconds, `none` for a nil pointer. -/
structure FrigateConnect where
  ID : Nat
  UserID : Nat
  FrigateURL : String
  FrigateUsername : String
  TokenCookie : String
  LastVerifiedAt : Option Int
  IsActive : Bool
deriving DecidableEq

/-- The constant `time.Hour`, in nanoseconds. -/
def Hour : Int := 3600000000000

/-- The method `FrigateConnect.ShouldVerifyToken`, the clock reading `now`. -/
def FrigateConnect.ShouldVerifyToken (fc : FrigateConnect) (now : Int) : Bool :=
  match fc.LastVerifiedAt with
  | none => true
  | some lastVerifiedAt => decide (now - lastVerifiedAt > Hour)

/-! ## handlers/auth.go -/

/-- Modelled from the spec: the declaration of `models.User`, the local
account, is not among the sources; these are the fields that
`handlers/auth.go` reads. -/
structure User where
  ID : Nat
  Username : String
  Email : String
  Password : String
  IsActive : Bool
deriving DecidableEq

/-- The record `LoginRequest`. -/
structure LoginRequest where
  Username : String
  Password : String
  FrigateURL : String
deriving DecidableEq

/-- What a `services.FrigateClient` gets from its upstream server: the result
of `VerifyToken` (`none` when the call returns an error) and of `Login` (`none`
when the call returns an error). -/
structure FrigateClient where
  VerifyToken : String → Option Bool
  Login : String → String → Option String

/-- A call made to the upstream server. -/
inductive UpstreamCall where
  | verify (token : String)
  | login (username password : String)
deriving DecidableEq

/-- The statement `db.Save(fc)`: the row with the primary key of `fc` takes the
values of `fc`; without such a row, `fc` is inserted. -/
def saveFrigateConnect (table : List FrigateConnect) (fc : FrigateConnect) :
    List FrigateConnect :=
  if table.any (fun r => decide (r.ID = fc.ID)) then
    table.map fun r => if r.ID = fc.ID then fc else r
  else table ++ [fc]

/-- What surrounds one call of `verifyOrRefreshFrigateToken`. -/
structure RefreshContext where
  /-- the clock read by `ShouldVerifyToken` -/
  checkedAt : Int
  /-- the clock read by `time.Now` before the record is stamped -/
  stampedAt : Int
  /-- the statement `db.Save(fc)` fails (its result is not inspected) -/
  saveFault : Bool

/-- What one call of `verifyOrRefreshFrigateToken` did. -/
structure RefreshRun where
  /-- the record behind `fc` after the call -/
  fc : FrigateConnect
  /-- table `frigate_connects` after the call -/
  table : List FrigateConnect
  /-- the upstream calls made, in order -/
  calls : List UpstreamCall
deriving DecidableEq

/-- The function `verifyOrRefreshFrigateToken`; `NewFrigateClient` gives the
upstream answers for a base URL. -/
def verifyOrRefreshFrigateToken (NewFrigateClient : String → FrigateClient)
    (cx : RefreshContext) (table : List FrigateConnect) (user : User) (fc : FrigateConnect)
    (password : String) : RefreshRun :=
  let client := NewFrigateClient fc.FrigateURL
  if !fc.ShouldVerifyToken cx.checkedAt then ⟨fc, table, []⟩
  else
    match client.VerifyToken fc.TokenCookie with
    | some true =>
      let fc2 := { fc with LastVerifiedAt := some cx.stampedAt }
      ⟨fc2, if cx.saveFault then table else saveFrigateConnect table fc2,
        [UpstreamCall.verify fc.TokenCookie]⟩
    | _ =>
      let username := if fc.FrigateUsername = "" then user.Username else fc.FrigateUsername
      match client.Login username password with
      | none =>
        ⟨fc, table, [UpstreamCall.verify fc.TokenCookie, UpstreamCall.login username password]⟩
      | some newToken =>
        let fc2 := { fc with TokenCookie := newToken, LastVerifiedAt := some cx.stampedAt }
        ⟨fc2, if cx.saveFault then table else saveFrigateConnect table fc2,
          [UpstreamCall.verify fc.TokenCookie, UpstreamCall.login username password]⟩

/-- The claims signed by `generateLocalToken`; `exp` in seconds. -/
structure Claims where
  user_id : Nat
  username : String
  email : String
  exp : Int
deriving DecidableEq

/-- The JSON answer written to the request context. -/
inductive Response where
  | error (code : Nat) (message : String)
  | loginSuccessful (token : String) (id : Nat) (username email : String)
deriving DecidableEq

/-- The function `generateLocalToken`: the answer and the session token store
afterwards.  `GenerateJWT` stands for `utils.GenerateJWT` (`none` when signing
fails); `claimsAt` and `storedAt` are its two clock readings. -/
def generateLocalToken (GenerateJWT : Claims → Option String) (claimsAt storedAt : Int)
    (tokenStore : TokenStore) (user : User) : Response × TokenStore :=
  let claims : Claims :=
    { user_id := user.ID, username := user.Username, email := user.Email,
      exp := (claimsAt + 24 * Hour) / 1000000000 }
  match GenerateJWT claims with
  | none => (Response.error 500 "Failed to generate token", tokenStore)
  | some tokenString =>
    (Response.loginSuccessful tokenString user.ID user.Username user.Email,
      tokenStore.Set tokenString
        { Token := tokenString, ExpiresAt := storedAt + 24 * Hour, UserID := user.ID })

/-- What surrounds one call of `handleLocalUserLogin`. -/
structure LoginContext where
  refresh : RefreshContext
  /-- the query for the user's active `FrigateConnect` row fails -/
  connectFault : Bool
  /-- the clock read for the `exp` claim -/
  claimsAt : Int
  /-- the clock read for `ExpiresAt` of the session entry -/
  storedAt : Int

/-- What one call of `handleLocalUserLogin` did. -/
structure LoginRun where
  response : Response
  tokenStore : TokenStore
  /-- table `frigate_connects` after the call -/
  frigateConnects : List FrigateConnect
  /-- the upstream calls made, in order -/
  calls : List UpstreamCall

/-- The query `Where("user_id = ? AND is_active = ?", user.ID, true).First`. -/
def findActiveConnect (table : List FrigateConnect) (userID : Nat) : Option FrigateConnect :=
  table.find? fun r => decide (r.UserID = userID) && r.IsActive

/-- The function `handleLocalUserLogin`.  `CompareHashAndPassword hash password`
is true when `bcrypt.CompareHashAndPassword` returns no error. -/
def handleLocalUserLogin (CompareHashAndPassword : String → String → Bool)
    (NewFrigateClient : String → FrigateClient) (GenerateJWT : Claims → Option String)
    (cx : LoginContext) (table : List FrigateConnect) (tokenStore : TokenStore)
    (user : User) (req : LoginRequest) : LoginRun :=
  if !CompareHashAndPassword user.Password req.Password then
    ⟨Response.error 401 "Invalid credentials", tokenStore, table, []⟩
  else if !user.IsActive then
    ⟨Response.error 403 "Account is inactive", tokenStore, table, []⟩
  else
    let found := if cx.connectFault then none else findActiveConnect table user.ID
    let refreshed : List FrigateConnect × List UpstreamCall :=
      match found with
      | some frigateConnect =>
        ((verifyOrRefreshFrigateToken NewFrigateClient cx.refresh table user frigateConnect
            req.Password).table,
          (verifyOrRefreshFrigateToken NewFrigateClient cx.refresh table user frigateConnect
            req.Password).calls)
      | none => (table, [])
    let issued := generateLocalToken GenerateJWT cx.claimsAt cx.storedAt tokenStore user
    ⟨issued.1, issued.2, refreshed.1, refreshed.2⟩

/-! ## Sample data for the session cache and the credential refresh -/

/-- A session that expires at time 100. -/
def sessionA : TokenInfo := { Token := "jwt-a", ExpiresAt := 100, UserID := 7 }

/-- A session that expires at time 200. -/
def sessionB : TokenInfo := { Token := "jwt-b", ExpiresAt := 200, UserID := 8 }

/-- The local account "alice". -/
def alice : User :=
  { ID := 7, Username := "alice", Email := "", Password := "hash-of-secret", IsActive := true }

/-- The login request of "alice". -/
def aliceLogin : LoginRequest := { Username := "alice", Password := "secret", FrigateURL := "" }

/-- The credential of "alice", verified at time 0 with token "T1". -/
def aliceConnect : FrigateConnect :=
  { ID := 1, UserID := 7, FrigateURL := "http://nvr:5000", FrigateUsername := "",
    TokenCookie := "T1", LastVerifiedAt := some 0, IsActive := true }

/-- An upstream that rejects every token and answers every login with "T2". -/
def upstreamRenews (_ : String) : FrigateClient :=
  { VerifyToken := fun _ => some false, Login := fun _ _ => some "T2" }

/-- An upstream that cannot be reached. -/
def upstreamDown (_ : String) : FrigateClient :=
  { VerifyToken := fun _ => none, Login := fun _ _ => none }

/-- A refresh two hours after time 0. -/
def twoHoursLater : RefreshContext := ⟨2 * Hour, 2 * Hour + 1, false⟩

/-- A login two hours after time 0. -/
def loginTwoHoursLater : LoginContext := ⟨twoHoursLater, false, 2 * Hour + 2, 2 * Hour + 3⟩

/-- The password check of the sample account. -/
def samplePasswordCheck (hash password : String) : Bool :=
  decide (hash = "hash-of-" ++ password)

/-- A signer that always succeeds. -/
def sampleSigner (claims : Claims) : Option String := some ("jwt-for-" ++ claims.username)

/-- Pieces put together again with a comma between neighbours. -/
def joinComma : List (List Char) → List Char
  | [] => []
  | [w] => w
  | w :: v :: ws => w ++ Char.ofNat 44 :: joinComma (v :: ws)

/-! ## services/firebase_client.go, the single send -/

/-- The error results of `FirebaseClient.SendNotification`. -/
inductive SingleSendError where
  | notInitialized
  | messagingClient
  | sendFailed
deriving DecidableEq

/-- What one call of `FirebaseClient.SendNotification` did. -/
structure SingleSendRun where
  /-- the `Send` calls made -/
  attempted : List Message
  /-- the call ended in a run-time panic instead of returning -/
  panicked : Bool
  /-- the returned error -/
  err : Option SingleSendError
deriving DecidableEq

/-- The method `FirebaseClient.SendNotification` (one device); the receiver is
`none` for a nil pointer.  After a successful send the log line takes
`token[:20]`, which is out of range for a token of fewer than 20 bytes. -/
def FirebaseClient.SendNotification (fc : Option FirebaseClient) (token title body : String)
    (data : List (String × String)) : SingleSendRun :=
  match fc with
  | none => ⟨[], false, some SingleSendError.notInitialized⟩
  | some c =>
    match c.app with
    | none => ⟨[], false, some SingleSendError.notInitialized⟩
    | some app =>
      match app.Messaging with
      | none => ⟨[], false, some SingleSendError.messagingClient⟩
      | some messagingClient =>
        let message : Message := { Token := token, Title := title, Body := body, Data := data }
        if messagingClient.Send message ≠ SendResult.sent then
          ⟨[message], false, some SingleSendError.sendFailed⟩
        else if token.utf8ByteSize < 20 then ⟨[message], true, none⟩
        else ⟨[message], false, none⟩

/-- A message without type: what `{"after": {"label": "person", ...}}` decodes to. -/
def untypedPersonEvent : FrigateEvent := { evt1 with type := "" }

/-- Notifications enabled, the event-type list unset, persons allowed. -/
def typeListUnset : Env :=
  { FCM_NOTIFICATIONS_ENABLED := "true", FCM_NOTIFY_ON_EVENT_TYPE := "",
    FCM_NOTIFY_LABELS := "person" }

/-- What the payload `{}` decodes to: every field at its zero value. -/
def zeroEvent : FrigateEvent :=
  { type := "",
    Before := { ID := "", Camera := "", Label := "", SubLabel := JSONValue.null, TopScore := 0,
                StartTime := 0, EndTime := none, Score := 0, Active := false,
                Stationary := false },
    After := { ID := "", Camera := "", Label := "", SubLabel := JSONValue.null, TopScore := 0,
               StartTime := 0, EndTime := none, Score := 0, Active := false,
               Stationary := false } }

/-- Notifications enabled, both allow-lists unset. -/
def bothListsUnset : Env :=
  { FCM_NOTIFICATIONS_ENABLED := "true", FCM_NOTIFY_ON_EVENT_TYPE := "",
    FCM_NOTIFY_LABELS := "" }

/-! ## services/mqtt_client.go -/

/-- The record `types.MQTTConfig`. -/
structure MQTTConfig where
  BrokerURL : String
  BrokerPort : String
  ClientID : String
  Username : String
  Password : String
  Topic : String
deriving DecidableEq

/-- The environment variables read by `NewMQTTClient` for the fields it keeps. -/
structure MQTTEnv where
  MQTT_BROKER_URL : String
  MQTT_BROKER_PORT : String
  MQTT_CLIENT_ID : String
  MQTT_TOPIC : String
deriving DecidableEq

/-- The fields of `MQTTClient` that the embedded methods read or write.  The
callback `onMessage` only logs (no caller installs another one), so only its
presence is kept; `eventService` holds nothing but the database handle, so
only its presence is kept. -/
structure MQTTClient where
  brokerURL : String
  brokerPort : String
  clientID : String
  topic : String
  connected : Bool
  /-- `onMessage` is not nil -/
  onMessage : Bool
  notificationService : Option NotificationService
  /-- `eventService` is not nil -/
  eventService : Bool

/-- A setting, else the environment variable, else the built-in default. -/
def settingOr (value fromEnv fallback : String) : String :=
  if value ≠ "" then value else if fromEnv ≠ "" then fromEnv else fallback

/-- The constructor `NewMQTTClient`. -/
def NewMQTTClient (env : MQTTEnv) (config : MQTTConfig) : MQTTClient :=
  { brokerURL := settingOr config.BrokerURL env.MQTT_BROKER_URL "localhost"
    brokerPort := settingOr config.BrokerPort env.MQTT_BROKER_PORT "1883"
    clientID := settingOr config.ClientID env.MQTT_CLIENT_ID "sotsukenn-server"
    topic := settingOr config.Topic env.MQTT_TOPIC "frigate/events"
    connected := false
    onMessage := true
    notificationService := none
    eventService := false }

/-- A call made on the broker client of the paho library. -/
inductive TransportCall where
  | connect
  | disconnect (quiesce : Nat)
  | subscribe (topic : String) (qos : Nat)
deriving DecidableEq

/-- The error results of `Connect` and `Subscribe`. -/
inductive MQTTError where
  | alreadyConnected
  | failedToConnect (cause : String)
  | notConnected
  | failedToSubscribe (cause : String)
deriving DecidableEq

/-- What one call of `Connect`, `Subscribe` or `Disconnect` did. -/
structure MQTTRun where
  /-- the returned error (`Disconnect` returns nothing: always `none`) -/
  err : Option MQTTError
  /-- the client after the call -/
  client : MQTTClient
  /-- the calls made on the broker client -/
  transport : List TransportCall

/-- The method `MQTTClient.Connect`.  `tokenError` is `token.Error()` once
`token.Wait()` has returned; `Wait` of a paho token blocks until the handshake
is over and then answers true. -/
def MQTTClient.Connect (mc : MQTTClient) (tokenError : Option String) : MQTTRun :=
  if mc.connected then ⟨some MQTTError.alreadyConnected, mc, []⟩
  else
    match tokenError with
    | some cause => ⟨some (MQTTError.failedToConnect cause), mc, [TransportCall.connect]⟩
    | none => ⟨none, { mc with connected := true }, [TransportCall.connect]⟩

/-- The method `MQTTClient.Disconnect`. -/
def MQTTClient.Disconnect (mc : MQTTClient) : MQTTRun :=
  if !mc.connected then ⟨none, mc, []⟩
  else ⟨none, { mc with connected := false }, [TransportCall.disconnect 250]⟩

/-- The method `MQTTClient.Subscribe`; `tokenError` as for `Connect`. -/
def MQTTClient.Subscribe (mc : MQTTClient) (tokenError : Option String) : MQTTRun :=
  if !mc.connected then ⟨some MQTTError.notConnected, mc, []⟩
  else
    match tokenError with
    | some cause =>
      ⟨some (MQTTError.failedToSubscribe cause), mc, [TransportCall.subscribe mc.topic 0]⟩
    | none => ⟨none, mc, [TransportCall.subscribe mc.topic 0]⟩

/-- The method `MQTTClient.IsConnected`. -/
def MQTTClient.IsConnected (mc : MQTTClient) : Bool := mc.connected

/-- One call of the connection life cycle, with the outcome of its handshake. -/
inductive MQTTCall where
  | Connect (tokenError : Option String)
  | Subscribe (tokenError : Option String)
  | Disconnect
deriving DecidableEq

/-- The call carried out on the client. -/
def MQTTClient.perform (mc : MQTTClient) : MQTTCall → MQTTRun
  | MQTTCall.Connect tokenError => mc.Connect tokenError
  | MQTTCall.Subscribe tokenError => mc.Subscribe tokenError
  | MQTTCall.Disconnect => mc.Disconnect

/-- A sequence of calls carried out in order: each call with the error it
returned, and the client at the end. -/
def runCalls (mc : MQTTClient) : List MQTTCall → List (MQTTCall × Option MQTTError) × MQTTClient
  | [] => ([], mc)
  | call :: rest =>
    (((call, (mc.perform call).err) :: (runCalls (mc.perform call).client rest).1),
      (runCalls (mc.perform call).client rest).2)

/-- The call is a `Connect` that returned no error. -/
def isSuccessfulConnect : MQTTCall × Option MQTTError → Bool
  | (MQTTCall.Connect _, none) => true
  | _ => false

/-- The call is a `Disconnect`. -/
def isDisconnect : MQTTCall → Bool
  | MQTTCall.Disconnect => true
  | _ => false

/-- In the words of the contract: a successful `Connect` has happened since the
start or since the last `Disconnect`, that is, some `Connect` of the history
returned no error and no `Disconnect` came after it. -/
def connectedSince : List (MQTTCall × Option MQTTError) → Bool
  | [] => false
  | entry :: later =>
    connectedSince later ||
      (isSuccessfulConnect entry && later.all fun p => !isDisconnect p.1)

/-- A step taken by `messageHandler` for one message. -/
inductive HandlerStep where
  | saveDetectionEvent (err : Option SaveError)
  | onMessage
  | sendNotification (err : Option NotifyError)
deriving DecidableEq

/-- What `messageHandler` did for one message. -/
structure HandlerRun where
  /-- the client after the message (its notification service holds the debounce cache) -/
  client : MQTTClient
  /-- table `detection_events` after the message -/
  events : EventStore
  /-- table `fcm_tokens` after the message -/
  tokens : FCMTokenTable
  /-- the `Send` calls made, in order -/
  attempted : List Message
  /-- the steps taken, in order -/
  steps : List HandlerStep
  /-- the handler ended in a run-time panic instead of returning -/
  panicked : Bool

/-- The method `MQTTClient.messageHandler`.  `Unmarshal` stands for
`json.Unmarshal` into a `FrigateEvent` (`none` when it returns an error);
`faults` and `ctx` surround the two service calls. -/
def messageHandler (Unmarshal : String → Option FrigateEvent) (env : Env)
    (FormatFloat : ℚ → String) (faults : DbFaults) (ctx : CallContext) (mc : MQTTClient)
    (events : EventStore) (tokens : FCMTokenTable) (payload : String) : HandlerRun :=
  match Unmarshal payload with
  | none => ⟨mc, events, tokens, [], [], false⟩
  | some event =>
    let saved : EventStore × List HandlerStep :=
      if mc.eventService then
        ((SaveDetectionEvent faults events event).2,
          [HandlerStep.saveDetectionEvent (SaveDetectionEvent faults events event).1])
      else (events, [])
    let called : List HandlerStep := if mc.onMessage then [HandlerStep.onMessage] else []
    match mc.notificationService with
    | none => ⟨mc, saved.1, tokens, [], saved.2 ++ called, false⟩
    | some notificationSvc =>
      let run := SendNotification env FormatFloat ctx notificationSvc tokens event
      ⟨{ mc with notificationService := some run.ns }, saved.1, run.table, run.attempted,
        saved.2 ++ called ++
          (if run.panicked then [] else [HandlerStep.sendNotification run.err]),
        run.panicked⟩

/-! ## services/monitoring_service.go -/

/-- The record `types.Go2RTCStream`; a producer or consumer is kept by its url,
only their number is read. -/
structure Go2RTCStream where
  Producers : List String
  Consumers : List String
deriving DecidableEq

/-- The record `types.CameraStatus`. -/
structure CameraStatus where
  OnlineCount : Nat
  OfflineCount : Nat
  TotalCount : Nat
  OnlineList : List String
  OfflineList : List String
deriving DecidableEq

/-- The camera of a stream: the stream name without the suffix `_WebRTC`
(lines 93-96). -/
def cameraNameOf (streamName : String) : String :=
  if "_WebRTC".data.isSuffixOf streamName.data then
    String.mk (streamName.data.take (streamName.data.length - 7))
  else streamName

/-- The loop of `GetCameraStatus` (lines 91-114) over the entries of the map in
the order in which `range` visits them; `seenCameras` is kept as the list of
the names set to true. -/
def visitStreams : List (String × Go2RTCStream) → List String → CameraStatus → CameraStatus
  | [], _, status => status
  | (streamName, streamData) :: rest, seenCameras, status =>
    if cameraNameOf streamName ∈ seenCameras then visitStreams rest seenCameras status
    else if streamData.Producers.length > 0 then
      visitStreams rest (cameraNameOf streamName :: seenCameras)
        { status with OnlineCount := status.OnlineCount + 1,
                      OnlineList := status.OnlineList ++ [cameraNameOf streamName] }
    else
      visitStreams rest (cameraNameOf streamName :: seenCameras)
        { status with OfflineCount := status.OfflineCount + 1,
                      OfflineList := status.OfflineList ++ [cameraNameOf streamName] }

/-- Lines 82-116 of `GetCameraStatus`: the status computed from the entries of
the streams map in visiting order. -/
def cameraStatusOf (streams : List (String × Go2RTCStream)) : CameraStatus :=
  { visitStreams streams [] ⟨0, 0, 0, [], []⟩ with
    TotalCount := (visitStreams streams [] ⟨0, 0, 0, [], []⟩).OnlineCount
      + (visitStreams streams [] ⟨0, 0, 0, [], []⟩).OfflineCount }

/-- The error results of `GetCameraStatus`. -/
inductive MonitoringError where
  | configurationNotFound
  | failedToGetStreams
deriving DecidableEq

/-- The method `MonitoringService.GetCameraStatus`.  `connectFault` says that
the query for the user's credential fails; `GetGo2RTCStreamsWithToken` gives
the upstream answer for a token: `none` for an error, else the entries of the
streams map in the order in which the loop will visit them. -/
def GetCameraStatus (connectFault : Bool) (table : List FrigateConnect)
    (GetGo2RTCStreamsWithToken : String → Option (List (String × Go2RTCStream)))
    (userID : Nat) : Option CameraStatus × Option MonitoringError :=
  match (if connectFault then none else findActiveConnect table userID) with
  | none => (none, some MonitoringError.configurationNotFound)
  | some frigateConnect =>
    match GetGo2RTCStreamsWithToken frigateConnect.TokenCookie with
    | none => (none, some MonitoringError.failedToGetStreams)
    | some streams => (some (cameraStatusOf streams), none)

/-- The spec-side reading of the visit: the cameras in the order in which they
are first met, each with the verdict of the stream that introduced it. -/
def firstVerdicts : List (String × Go2RTCStream) → List String → List (String × Bool)
  | [], _ => []
  | (streamName, streamData) :: rest, seen =>
    if cameraNameOf streamName ∈ seen then firstVerdicts rest seen
    else
      (cameraNameOf streamName, decide (streamData.Producers.length > 0))
        :: firstVerdicts rest (cameraNameOf streamName :: seen)

/-! ## Sample data for the broker client and the camera status -/

/-- A stream without producer. -/
def idleStream : Go2RTCStream := { Producers := [], Consumers := [] }

/-- A stream with one producer. -/
def liveStream : Go2RTCStream := { Producers := ["rtsp://cam/live"], Consumers := [] }

/-- Camera "cam" with its plain stream idle and its WebRTC stream live, the
plain stream visited first. -/
def camPlainFirst : List (String × Go2RTCStream) :=
  [("cam", idleStream), ("cam_WebRTC", liveStream)]

/-- The same map, the WebRTC stream visited first. -/
def camWebRTCFirst : List (String × Go2RTCStream) :=
  [("cam_WebRTC", liveStream), ("cam", idleStream)]

/-- A client as wired by `main`: both services set. -/
def wiredClient : MQTTClient :=
  { NewMQTTClient ⟨"", "", "", ""⟩ ⟨"", "", "", "", "", ""⟩ with
    notificationService := some sampleService, eventService := true }

/-- A decoder that knows two payloads. -/
def sampleUnmarshal (payload : String) : Option FrigateEvent :=
  if payload = "evt1" then some evt1 else if payload = "evt2" then some evt2 else none

/-- Only the `INSERT` fails. -/
def createFault : DbFaults := ⟨false, false, true, false⟩

/-! ## Properties of the event store -/

theorem filter_demoteCurrent_same (camera label : String) (s : EventStore) :
    (demoteCurrent camera label s).filter (isCurrentOf camera label) = [] := by
  induction s with
  | nil => rfl
  | cons r rs ih =>
    have ih2 : List.filter (isCurrentOf camera label) (demoteCurrent camera label rs) = [] := ih
    simp only [demoteCurrent, List.map_cons] at ih2 ⊢
    by_cases h : isCurrentOf camera label r = true
    · have h2 : isCurrentOf camera label { r with IsCurrent := false } = false := by
        simp [isCurrentOf]
      simp [h, h2, List.filter_cons, ih2]
    · simp [h, List.filter_cons, ih2]

theorem filter_demoteCurrent_other (camera label camera2 label2 : String) (s : EventStore)
    (h : ¬ (camera2 = camera ∧ label2 = label)) :
    (demoteCurrent camera label s).filter (isCurrentOf camera2 label2)
      = s.filter (isCurrentOf camera2 label2) := by
  induction s with
  | nil => rfl
  | cons r rs ih =>
    have ih2 : List.filter (isCurrentOf camera2 label2) (demoteCurrent camera label rs)
        = List.filter (isCurrentOf camera2 label2) rs := ih
    simp only [demoteCurrent, List.map_cons] at ih2 ⊢
    by_cases hr : isCurrentOf camera label r = true
    · have h1 : isCurrentOf camera2 label2 { r with IsCurrent := false } = false := by
        simp [isCurrentOf]
      have h2 : isCurrentOf camera2 label2 r = false := by
        simp only [isCurrentOf, Bool.and_eq_true, decide_eq_true_eq] at hr
        simp only [isCurrentOf, Bool.and_eq_false_iff, decide_eq_false_iff_not]
        by_cases hc : r.Camera = camera2
        · by_cases hl : r.Label = label2
          · exact absurd (And.intro (hc.symm.trans hr.1.1) (hl.symm.trans hr.1.2)) h
          · exact Or.inl (Or.inr hl)
        · exact Or.inl (Or.inl hc)
      simp [hr, h1, h2, List.filter_cons, ih2]
    · simp [hr, List.filter_cons, ih2]

theorem eventExists_iff (s : EventStore) (id : String) :
    eventExists s id = true ↔ ∃ r ∈ s, r.EventID = id := by
  simp [eventExists]

theorem eventExists_append_new (pre : EventStore) (event : FrigateEvent) :
    eventExists (pre ++ [newDetectionEvent event]) event.After.ID = true := by
  simp [eventExists, newDetectionEvent]

/-- The outcomes of `SaveDetectionEvent`: the table is returned as it was, or
the call went through the transaction and appended the new row. -/
theorem SaveDetectionEvent_cases (f : DbFaults) (s : EventStore) (event : FrigateEvent) :
    (SaveDetectionEvent f s event).2 = s ∨
    (event.type = EventTypeNew ∧ f.lookup = false ∧ eventExists s event.After.ID = false ∧
      f.create = false ∧ f.commit = false ∧
      SaveDetectionEvent f s event =
        (none, (if f.update then s
                else demoteCurrent event.After.Camera event.After.Label s)
               ++ [newDetectionEvent event])) := by
  unfold SaveDetectionEvent
  by_cases h1 : event.type = EventTypeNew
  · cases h2 : f.lookup
    · cases h3 : eventExists s event.After.ID
      · cases h4 : f.create
        · cases h5 : f.commit
          · right; simp [h1]
          · left; simp [h1]
        · left; simp [h1]
      · left; simp [h1]
    · left; simp [h1]
  · left; simp [h1]

theorem isCurrentOf_newDetectionEvent (event : FrigateEvent) (camera label : String) :
    isCurrentOf camera label (newDetectionEvent event)
      = (decide (event.After.Camera = camera) && decide (event.After.Label = label)) := by
  simp [isCurrentOf, newDetectionEvent]

/-- After a demotion that was executed, the appended row is the only current
row of its pair and every other pair keeps its current rows. -/
theorem filter_after_insert (s : EventStore) (event : FrigateEvent) (camera label : String) :
    (demoteCurrent event.After.Camera event.After.Label s ++ [newDetectionEvent event]).filter
        (isCurrentOf camera label)
      = if camera = event.After.Camera ∧ label = event.After.Label
        then [newDetectionEvent event] else s.filter (isCurrentOf camera label) := by
  rw [List.filter_append]
  by_cases h : camera = event.After.Camera ∧ label = event.After.Label
  · obtain ⟨hc, hl⟩ := h
    subst hc; subst hl
    rw [filter_demoteCurrent_same]
    simp [List.filter_cons, isCurrentOf_newDetectionEvent]
  · rw [filter_demoteCurrent_other _ _ _ _ _ h, if_neg h]
    have hn : isCurrentOf camera label (newDetectionEvent event) = false := by
      rw [isCurrentOf_newDetectionEvent]
      simp only [Bool.and_eq_false_iff, decide_eq_false_iff_not]
      by_cases hc : event.After.Camera = camera
      · by_cases hl : event.After.Label = label
        · exact absurd (And.intro hc.symm hl.symm) h
        · exact Or.inr hl
      · exact Or.inl hc
    simp [List.filter_cons, hn]

/-- Whenever the demotion statement is executed, `SaveDetectionEvent` keeps the
invariant "at most one current row per (camera, label) pair", whatever else
fails; and when the call inserts a row (the table grows), the table is the
former rows followed by the new row, and the new row is the only current row of
its pair. -/
theorem SaveDetectionEvent_keeps_single_current (f : DbFaults) (s : EventStore) (event : FrigateEvent)
    (hf : f.update = false) (h : AtMostOneCurrent s) :
    AtMostOneCurrent (SaveDetectionEvent f s event).2 ∧
    ((SaveDetectionEvent f s event).2.length = s.length + 1 →
      (∃ pre, (SaveDetectionEvent f s event).2 = pre ++ [newDetectionEvent event]) ∧
      (SaveDetectionEvent f s event).2.filter
          (isCurrentOf event.After.Camera event.After.Label) = [newDetectionEvent event]) := by
  rcases SaveDetectionEvent_cases f s event with hs | ⟨_, _, _, _, _, hs⟩
  · rw [hs]
    exact ⟨h, fun hl => absurd hl (by omega)⟩
  · rw [hs, hf]
    simp only [Bool.false_eq_true, if_false]
    refine ⟨?_, fun _ => ⟨⟨_, rfl⟩, ?_⟩⟩
    · intro camera label
      rw [filter_after_insert]
      split
      · simp
      · exact h camera label
    · rw [filter_after_insert]
      simp

/-- C3. With a working existence query, an event whose id is already stored is
skipped: no error, the table is returned as it was.  And whenever a first call
for an event returned no error, a second call for the same event returns no
error and leaves the table as the first call left it. -/
theorem C3_stored_event_is_skipped (f : DbFaults) (s : EventStore) (event : FrigateEvent)
    (hf : f.lookup = false) :
    ((∃ r ∈ s, r.EventID = event.After.ID) → SaveDetectionEvent f s event = (none, s)) ∧
    (∀ f1 : DbFaults, (SaveDetectionEvent f1 s event).1 = none →
      SaveDetectionEvent f (SaveDetectionEvent f1 s event).2 event
        = (none, (SaveDetectionEvent f1 s event).2)) := by
  have skip : ∀ t : EventStore, eventExists t event.After.ID = true →
      SaveDetectionEvent f t event = (none, t) := by
    intro t ht
    unfold SaveDetectionEvent
    by_cases h1 : event.type = EventTypeNew <;> simp [h1, hf, ht]
  refine ⟨fun h => skip s ((eventExists_iff s _).2 h), ?_⟩
  intro f1 hnone
  by_cases h1 : event.type = EventTypeNew
  · rcases SaveDetectionEvent_cases f1 s event with hs | ⟨_, h2, h3, h4, h5, hs⟩
    · cases hex : eventExists s event.After.ID
      · -- the first call neither found the row nor inserted it: it failed
        exfalso
        unfold SaveDetectionEvent at hnone hs
        cases h2 : f1.lookup <;> cases h4 : f1.create <;> cases h5 : f1.commit <;>
          simp [h1, h2, h4, h5, hex] at hnone hs
        have hlen := congrArg List.length hs
        cases hu : f1.update <;> simp [hu, demoteCurrent] at hlen
      · rw [hs]; exact skip s hex
    · rw [hs]
      exact skip _ (eventExists_append_new _ _)
  · have hs : SaveDetectionEvent f1 s event = (none, s) := by
      unfold SaveDetectionEvent; simp [h1]
    rw [hs]
    unfold SaveDetectionEvent; simp [h1]

/-- C5. An event whose type is not "new" (such as "update" or "end") is not
persisted: no error, the table is returned as it was, whatever the database
would have answered. -/
theorem C5_only_new_is_persisted (f : DbFaults) (s : EventStore) (event : FrigateEvent)
    (h : event.type ≠ EventTypeNew) : SaveDetectionEvent f s event = (none, s) := by
  unfold SaveDetectionEvent
  simp [h]

theorem atMostOneCurrent_storeEvt1 : AtMostOneCurrent storeEvt1 :=
  fun camera label => List.length_filter_le (isCurrentOf camera label) storeEvt1

theorem SaveDetectionEvent_keeps_single_current_example :
    AtMostOneCurrent storeEvt1 ∧
    AtMostOneCurrent (SaveDetectionEvent noFaults storeEvt1 evt2).2 ∧
    ((SaveDetectionEvent noFaults storeEvt1 evt2).2.length = storeEvt1.length + 1 →
      (∃ pre, (SaveDetectionEvent noFaults storeEvt1 evt2).2 = pre ++ [newDetectionEvent evt2]) ∧
      (SaveDetectionEvent noFaults storeEvt1 evt2).2.filter
          (isCurrentOf evt2.After.Camera evt2.After.Label) = [newDetectionEvent evt2]) :=
  ⟨atMostOneCurrent_storeEvt1,
    SaveDetectionEvent_keeps_single_current noFaults storeEvt1 evt2 rfl atMostOneCurrent_storeEvt1⟩

/-- C1, at the failing input. The table holds the current row of `evt1` and
satisfies the invariant; `evt2` of the same pair arrives and the demotion
`UPDATE` fails while `INSERT` and `COMMIT` succeed.  The call returns no error
and inserts a row (the table is the former row followed by the new one), the
table afterwards has two current rows for the pair, so the invariant is lost,
and the inserted row is not the only current row of its pair. -/
theorem C1_unchecked_update_breaks_invariant :
    AtMostOneCurrent storeEvt1 ∧
    (SaveDetectionEvent updateFault storeEvt1 evt2).1 = none ∧
    (SaveDetectionEvent updateFault storeEvt1 evt2).2 = storeEvt1 ++ [newDetectionEvent evt2] ∧
    ((SaveDetectionEvent updateFault storeEvt1 evt2).2.filter
      (isCurrentOf evt2.After.Camera evt2.After.Label)).length = 2 ∧
    ¬ AtMostOneCurrent (SaveDetectionEvent updateFault storeEvt1 evt2).2 ∧
    (SaveDetectionEvent updateFault storeEvt1 evt2).2.filter
      (isCurrentOf evt2.After.Camera evt2.After.Label) ≠ [newDetectionEvent evt2] := by
  have h2 : ((SaveDetectionEvent updateFault storeEvt1 evt2).2.filter
      (isCurrentOf evt2.After.Camera evt2.After.Label)).length = 2 := by decide
  refine ⟨atMostOneCurrent_storeEvt1, by decide, by decide, h2, ?_, by decide⟩
  intro h
  have h1 := h evt2.After.Camera evt2.After.Label
  omega

theorem C3_witness :
    (∃ r ∈ storeEvt1, r.EventID = evt1.After.ID) ∧
    SaveDetectionEvent noFaults storeEvt1 evt1 = (none, storeEvt1) :=
  ⟨⟨newDetectionEvent evt1, List.mem_singleton.2 rfl, rfl⟩,
    (C3_stored_event_is_skipped noFaults storeEvt1 evt1 rfl).1
      ⟨newDetectionEvent evt1, List.mem_singleton.2 rfl, rfl⟩⟩

theorem C5_witness :
    evt1Update.type ≠ EventTypeNew ∧
    SaveDetectionEvent noFaults storeEvt1 evt1Update = (none, storeEvt1) :=
  ⟨by decide, C5_only_new_is_persisted noFaults storeEvt1 evt1Update (by decide)⟩

/-- C7. From the empty table: storing `evt1` gives one row, `evt1`, current;
storing `evt2` afterwards leaves two rows, `evt1` no longer current and `evt2`
current, and the last event time of ("front", "person") is 1005. -/
theorem C7_two_events_scenario :
    SaveDetectionEvent noFaults [] evt1 = (none, storeEvt1) ∧
    storeEvt1.map (fun r => (r.EventID, r.IsCurrent)) = [("evt1", true)] ∧
    (SaveDetectionEvent noFaults storeEvt1 evt2).1 = none ∧
    (SaveDetectionEvent noFaults storeEvt1 evt2).2.map (fun r => (r.EventID, r.IsCurrent))
      = [("evt1", false), ("evt2", true)] ∧
    GetLastEventTime false (SaveDetectionEvent noFaults storeEvt1 evt2).2 "front" "person"
      = (1005, none) := by
  refine ⟨?_, ?_, ?_, ?_, ?_⟩ <;> decide

theorem saveAll_append (s : EventStore) (a b : List (DbFaults × FrigateEvent)) :
    saveAll s (a ++ b) = saveAll (saveAll s a) b := by
  induction a generalizing s with
  | nil => rfl
  | cons p rest ih =>
    obtain ⟨f, e⟩ := p
    simp only [List.cons_append, saveAll]
    exact ih _

/-- A call stores no id other than the one of its event. -/
theorem eventExists_after_save (f : DbFaults) (s : EventStore) (event : FrigateEvent)
    (id : String) (hs : eventExists s id = false) (hid : event.After.ID ≠ id) :
    eventExists (SaveDetectionEvent f s event).2 id = false := by
  rcases SaveDetectionEvent_cases f s event with h | ⟨_, _, _, _, _, h⟩
  · rw [h]; exact hs
  · rw [h]
    simp only [eventExists, List.any_eq_false, decide_eq_true_eq] at hs ⊢
    intro r hr
    rcases List.mem_append.1 hr with hr | hr
    · cases hu : f.update
      · simp only [hu, Bool.false_eq_true, if_false, demoteCurrent, List.mem_map] at hr
        obtain ⟨r0, hr0, rfl⟩ := hr
        have := hs r0 hr0
        split <;> simpa using this
      · simp only [hu, if_true] at hr
        exact hs r hr
    · rw [List.mem_singleton.1 hr]
      simpa [newDetectionEvent] using hid

theorem eventExists_after_saveAll (steps : List (DbFaults × FrigateEvent)) (s : EventStore)
    (id : String) (hs : eventExists s id = false)
    (hid : ∀ p ∈ steps, p.2.After.ID ≠ id) :
    eventExists (saveAll s steps) id = false := by
  induction steps generalizing s with
  | nil => exact hs
  | cons p rest ih =>
    obtain ⟨f, e⟩ := p
    simp only [saveAll]
    apply ih
    · exact eventExists_after_save f s e id hs (hid (f, e) (List.mem_cons_self _ _))
    · intro q hq
      exact hid q (List.mem_cons_of_mem _ hq)

/-- C2 as stated fails: after `evt1`, `evt2` and a re-delivered `evt1`, all of
type "new" and of the pair ("front", "person"), the current row is the one of
`evt2`, not the one of the event processed last. -/
theorem C2_redelivery_counterexample :
    (∀ e ∈ [evt1, evt2, evt1],
      e.type = EventTypeNew ∧ e.After.Camera = "front" ∧ e.After.Label = "person") ∧
    ¬ CurrentIsLast (saveAll [] [(noFaults, evt1), (noFaults, evt2), (noFaults, evt1)])
        "front" "person" [evt1, evt2, evt1] := by
  refine ⟨by decide, ?_⟩
  rintro ⟨last, hlast, r, hr, hid⟩
  have h1 : last = evt1 := by
    simp only [List.getLast?] at hlast
    exact (Option.some.inj hlast).symm
  have h2 : List.filter (isCurrentOf "front" "person")
      (saveAll [] [(noFaults, evt1), (noFaults, evt2), (noFaults, evt1)])
      = [newDetectionEvent evt2] := by decide
  rw [h2] at hr
  have h3 : r = newDetectionEvent evt2 := (List.cons.inj hr).1.symm
  rw [h1, h3] at hid
  exact absurd hid (by decide)

/-- C2, amended. Let events be processed in order, each call with any pattern
of failing statements, and then a last event of type "new" whose id is neither
stored beforehand nor carried by an earlier event of the sequence, with the
statements of that last call succeeding.  Afterwards exactly one row of the
pair of the last event is current, and it is the row of the last event; the
start times play no part. -/
theorem C2_last_fresh_event_is_current (s : EventStore)
    (steps : List (DbFaults × FrigateEvent)) (last : FrigateEvent)
    (hnew : last.type = EventTypeNew)
    (hstored : ∀ r ∈ s, r.EventID ≠ last.After.ID)
    (hearlier : ∀ p ∈ steps, p.2.After.ID ≠ last.After.ID) :
    CurrentIsLast (saveAll s (steps ++ [(noFaults, last)])) last.After.Camera last.After.Label
        ((steps ++ [(noFaults, last)]).map Prod.snd) ∧
    (saveAll s (steps ++ [(noFaults, last)])).filter
        (isCurrentOf last.After.Camera last.After.Label) = [newDetectionEvent last] := by
  have hs : eventExists s last.After.ID = false := by
    simp only [eventExists, List.any_eq_false, decide_eq_true_eq]
    exact hstored
  have hex := eventExists_after_saveAll steps s last.After.ID hs hearlier
  have hsave : saveAll s (steps ++ [(noFaults, last)])
      = demoteCurrent last.After.Camera last.After.Label (saveAll s steps)
          ++ [newDetectionEvent last] := by
    rw [saveAll_append]
    simp only [saveAll]
    unfold SaveDetectionEvent
    simp [hnew, hex, noFaults]
  have hfilter : (saveAll s (steps ++ [(noFaults, last)])).filter
      (isCurrentOf last.After.Camera last.After.Label) = [newDetectionEvent last] := by
    rw [hsave, filter_after_insert]
    simp
  refine ⟨⟨last, ?_, newDetectionEvent last, hfilter, rfl⟩, hfilter⟩
  simp

theorem C2_witness :
    CurrentIsLast (saveAll [] ([(noFaults, evt1)] ++ [(noFaults, evt2)]))
        evt2.After.Camera evt2.After.Label
        (([(noFaults, evt1)] ++ [(noFaults, evt2)]).map Prod.snd) ∧
    (saveAll [] ([(noFaults, evt1)] ++ [(noFaults, evt2)])).filter
        (isCurrentOf evt2.After.Camera evt2.After.Label) = [newDetectionEvent evt2] :=
  C2_last_fresh_event_is_current [] [(noFaults, evt1)] evt2 rfl
    (by intro r hr; cases hr) (by decide)

/-- Every error result of `SaveDetectionEvent` comes with the table as it was
before the call. -/
theorem SaveDetectionEvent_error_keeps_store (f : DbFaults) (s : EventStore)
    (event : FrigateEvent) (e : SaveError) (h : (SaveDetectionEvent f s event).1 = some e) :
    (SaveDetectionEvent f s event).2 = s := by
  rcases SaveDetectionEvent_cases f s event with hs | ⟨_, _, _, _, _, hs⟩
  · exact hs
  · rw [hs] at h
    cases h

/-- C4, at the failing input. The table holds the current row of `evt1`; `evt2`
of the same pair arrives; the demotion `UPDATE` fails while `INSERT` and
`COMMIT` succeed.  The call returns no error, the insert has taken effect and
the demotion has not: both rows of the pair are current, although the table
satisfied the invariant before. -/
theorem C4_insert_without_demotion :
    AtMostOneCurrent storeEvt1 ∧
    SaveDetectionEvent updateFault storeEvt1 evt2
      = (none, [newDetectionEvent evt1, newDetectionEvent evt2]) ∧
    (SaveDetectionEvent updateFault storeEvt1 evt2).2.filter (isCurrentOf "front" "person")
      = [newDetectionEvent evt1, newDetectionEvent evt2] ∧
    ¬ AtMostOneCurrent (SaveDetectionEvent updateFault storeEvt1 evt2).2 := by
  refine ⟨atMostOneCurrent_storeEvt1, by decide, by decide, ?_⟩
  intro h
  have h2 := h "front" "person"
  have h3 : (List.filter (isCurrentOf "front" "person")
      (SaveDetectionEvent updateFault storeEvt1 evt2).2).length = 2 := by decide
  omega

theorem firstByStartTimeDesc_eq_none (l : List DetectionEvent) :
    firstByStartTimeDesc l = none ↔ l = [] := by
  cases l with
  | nil => simp [firstByStartTimeDesc]
  | cons r rs =>
    simp only [firstByStartTimeDesc]
    cases firstByStartTimeDesc rs with
    | none => simp
    | some m => by_cases h : r.StartTime < m.StartTime <;> simp [h]

/-- The row picked by `ORDER BY start_time DESC` with `First` is a row of the
result set and no row of the result set has a greater start time. -/
theorem firstByStartTimeDesc_spec (l : List DetectionEvent) (m : DetectionEvent)
    (h : firstByStartTimeDesc l = some m) :
    m ∈ l ∧ ∀ r ∈ l, r.StartTime ≤ m.StartTime := by
  induction l generalizing m with
  | nil => simp [firstByStartTimeDesc] at h
  | cons r rs ih =>
    simp only [firstByStartTimeDesc] at h
    cases hrs : firstByStartTimeDesc rs with
    | none =>
      rw [hrs] at h
      have hnil := (firstByStartTimeDesc_eq_none rs).1 hrs
      cases h
      subst hnil
      simp
    | some m0 =>
      rw [hrs] at h
      obtain ⟨hm0, hmax⟩ := ih m0 hrs
      by_cases hlt : r.StartTime < m0.StartTime
      · simp only [hlt, if_true] at h
        cases h
        refine ⟨List.mem_cons_of_mem _ hm0, ?_⟩
        intro x hx
        rcases List.mem_cons.1 hx with rfl | hx
        · exact le_of_lt hlt
        · exact hmax x hx
      · simp only [hlt, if_false] at h
        cases h
        refine ⟨List.mem_cons_self _ _, ?_⟩
        intro x hx
        rcases List.mem_cons.1 hx with rfl | hx
        · exact le_refl _
        · exact le_trans (hmax x hx) (not_lt.1 hlt)

/-- C6. When the query succeeds, `GetLastEventTime` looks at the current rows
that match the filters, an empty camera or label meaning no filter on that
field; it returns no error; with no such row it returns 0, otherwise the start
time of such a row with the greatest start time. -/
theorem C6_last_event_time (s : EventStore) (camera label : String) :
    (∀ r, r ∈ s.filter (matchesLastEventFilter camera label) ↔
      r ∈ s ∧ r.IsCurrent = true ∧ (camera = "" ∨ r.Camera = camera) ∧
        (label = "" ∨ r.Label = label)) ∧
    (GetLastEventTime false s camera label).2 = none ∧
    (s.filter (matchesLastEventFilter camera label) = [] →
      (GetLastEventTime false s camera label).1 = 0) ∧
    (s.filter (matchesLastEventFilter camera label) ≠ [] →
      ∃ m ∈ s.filter (matchesLastEventFilter camera label),
        (GetLastEventTime false s camera label).1 = m.StartTime ∧
        ∀ r ∈ s.filter (matchesLastEventFilter camera label), r.StartTime ≤ m.StartTime) := by
  refine ⟨?_, ?_, ?_, ?_⟩
  · intro r
    simp [List.mem_filter, matchesLastEventFilter, and_assoc]
  · simp only [GetLastEventTime, Bool.false_eq_true, if_false]
    cases firstByStartTimeDesc (s.filter (matchesLastEventFilter camera label)) <;> rfl
  · intro h
    simp only [GetLastEventTime, Bool.false_eq_true, if_false, h, firstByStartTimeDesc]
  · intro h
    cases hm : firstByStartTimeDesc (s.filter (matchesLastEventFilter camera label)) with
    | none => exact absurd ((firstByStartTimeDesc_eq_none _).1 hm) h
    | some m =>
      obtain ⟨hmem, hmax⟩ := firstByStartTimeDesc_spec _ m hm
      refine ⟨m, hmem, ?_, hmax⟩
      simp only [GetLastEventTime, Bool.false_eq_true, if_false, hm]

theorem textLe_iff (a b : String) : textLe a b = true ↔ a ≤ b := by
  simp [textLe, String.le_iff_toList_le]

theorem insertAsc_perm (a : String) (l : List String) : (insertAsc a l).Perm (a :: l) := by
  induction l with
  | nil => exact List.Perm.refl _
  | cons b bs ih =>
    simp only [insertAsc]
    split
    · exact List.Perm.refl _
    · exact (List.Perm.cons b ih).trans (List.Perm.swap a b bs)

theorem orderAsc_perm (l : List String) : (orderAsc l).Perm l := by
  induction l with
  | nil => exact List.Perm.refl _
  | cons a as ih => exact (insertAsc_perm a (orderAsc as)).trans (List.Perm.cons a ih)

theorem insertAsc_sorted (a : String) (l : List String) (h : l.Sorted (· ≤ ·)) :
    (insertAsc a l).Sorted (· ≤ ·) := by
  induction l with
  | nil => simp [insertAsc]
  | cons b bs ih =>
    obtain ⟨hb, hbs⟩ := List.sorted_cons.1 h
    simp only [insertAsc]
    by_cases hab : textLe a b = true
    · simp only [hab, if_true]
      have hab2 : a ≤ b := (textLe_iff a b).1 hab
      refine List.sorted_cons.2 ⟨?_, h⟩
      intro x hx
      rcases List.mem_cons.1 hx with rfl | hx
      · exact hab2
      · exact le_trans hab2 (hb x hx)
    · simp only [hab, Bool.false_eq_true, if_false]
      have hba : b ≤ a := by
        rcases le_total a b with h1 | h1
        · exact absurd ((textLe_iff a b).2 h1) hab
        · exact h1
      refine List.sorted_cons.2 ⟨?_, ih hbs⟩
      intro x hx
      rcases List.mem_cons.1 ((insertAsc_perm a bs).mem_iff.1 hx) with rfl | hx
      · exact hba
      · exact hb x hx

theorem orderAsc_sorted (l : List String) : (orderAsc l).Sorted (· ≤ ·) := by
  induction l with
  | nil => simp [orderAsc]
  | cons a as ih => exact insertAsc_sorted a _ ih

/-- C8. When both queries succeed, `GetPersonDetectionCount` returns no error,
the number of rows whose label is "person", and a list that holds exactly the
non-empty `sub_label` values of those rows, each once, in strictly ascending
lexicographic order. -/
theorem C8_person_detection_count (s : EventStore) :
    ∃ subLabels : List String,
      GetPersonDetectionCount false false s
        = (s.countP (fun r => decide (r.Label = "person")), subLabels, none) ∧
      (∀ x, x ∈ subLabels ↔ x ≠ "" ∧ ∃ r ∈ s, r.Label = "person" ∧ r.SubLabel = x) ∧
      subLabels.Nodup ∧ subLabels.Sorted (· < ·) := by
  have hnodup : (orderAsc ((s.filter isNamedPerson).map fun r => r.SubLabel).dedup).Nodup :=
    (orderAsc_perm _).nodup_iff.2 (List.nodup_dedup _)
  refine ⟨orderAsc ((s.filter isNamedPerson).map fun r => r.SubLabel).dedup, ?_, ?_, hnodup,
    (orderAsc_sorted _).lt_of_le hnodup⟩
  · simp [GetPersonDetectionCount, List.countP_eq_length_filter]
  · intro x
    rw [(orderAsc_perm _).mem_iff, List.mem_dedup, List.mem_map]
    constructor
    · rintro ⟨r, hr, rfl⟩
      obtain ⟨hrs, hp⟩ := List.mem_filter.1 hr
      simp only [isNamedPerson, Bool.and_eq_true, decide_eq_true_eq] at hp
      exact ⟨hp.2, r, hrs, hp.1, rfl⟩
    · rintro ⟨hx, r, hrs, hl, rfl⟩
      refine ⟨r, List.mem_filter.2 ⟨hrs, ?_⟩, rfl⟩
      simp only [isNamedPerson, Bool.and_eq_true, decide_eq_true_eq]
      exact ⟨hl, hx⟩

/-! ## Properties of the notification service -/

theorem sendLoop_attempted_ne_nil (client : MessagingClient) (title body : String)
    (data : List (String × String)) (token : String) (rest : List String) :
    (sendLoop client title body data (token :: rest)).1 ≠ [] := by
  simp only [sendLoop]
  split
  · simp
  · split <;> simp

/-- With a configured transport and a non-empty token list the call reaches the
send loop: it returns no error and makes at least one `Send` call. -/
theorem SendMulticastNotification_configured (client : MessagingClient) (tokens : List String)
    (title body : String) (data : List (String × String)) (h : tokens ≠ []) :
    (SendMulticastNotification (some ⟨some ⟨some client⟩⟩) tokens title body data).err = none ∧
    (SendMulticastNotification (some ⟨some ⟨some client⟩⟩) tokens title body data).attempted
      ≠ [] := by
  obtain ⟨token, rest, rfl⟩ := List.exists_cons_of_ne_nil h
  have hne := sendLoop_attempted_ne_nil client title body data token rest
  simp only [SendMulticastNotification, List.length_cons, Nat.succ_ne_zero, if_false]
  rcases hloop : sendLoop client title body data (token :: rest) with ⟨att, _ | inv⟩
  · rw [hloop] at hne
    exact ⟨rfl, hne⟩
  · rw [hloop] at hne
    exact ⟨rfl, hne⟩

/-- A sweep never changes the answer of a later debounce check. -/
theorem isDebounced_cleanDebounceCache (ns : NotificationService) (t now : Int) (key : String)
    (h : t ≤ now) :
    isDebounced (cleanDebounceCache ns t) now key = isDebounced ns now key := by
  simp only [isDebounced, cleanDebounceCache]
  cases hk : ns.debounceCache key with
  | none => rfl
  | some lastSent =>
    by_cases hold : t - lastSent > ns.debounceDuration
    · simp only [hold, if_true]
      symm
      simp only [decide_eq_false_iff_not, not_lt]
      omega
    · simp only [hold, if_false]

theorem sweepAll_fields (ns : NotificationService) (ts : List Int) :
    (sweepAll ns ts).debounceDuration = ns.debounceDuration ∧
    (sweepAll ns ts).firebaseClient = ns.firebaseClient := by
  induction ts generalizing ns with
  | nil => exact ⟨rfl, rfl⟩
  | cons t ts ih => exact ih (cleanDebounceCache ns t)

theorem isDebounced_sweepAll (ns : NotificationService) (ts : List Int) (now : Int)
    (key : String) (h : ∀ t ∈ ts, t ≤ now) :
    isDebounced (sweepAll ns ts) now key = isDebounced ns now key := by
  induction ts generalizing ns with
  | nil => rfl
  | cons t ts ih =>
    simp only [sweepAll]
    rw [ih _ (fun x hx => h x (List.mem_cons_of_mem _ hx))]
    exact isDebounced_cleanDebounceCache ns t now key (h t (List.mem_cons_self _ _))

theorem isDebounced_markAsSent_same (ns : NotificationService) (sentAt now : Int)
    (key : String) :
    isDebounced (markAsSent ns sentAt key) now key
      = decide (now - sentAt < ns.debounceDuration) := by
  simp [isDebounced, markAsSent]

theorem isDebounced_markAsSent_other (ns : NotificationService) (sentAt now : Int)
    (key key2 : String) (h : key2 ≠ key) :
    isDebounced (markAsSent ns sentAt key) now key2 = isDebounced ns now key2 := by
  simp [isDebounced, markAsSent, h]

/-- A call that passes the allow-list and the debounce check, finds an active
token and has a configured transport makes at least one `Send` call; if it
returns, it returns no error and has marked its key as sent. -/
theorem SendNotification_dispatches (env : Env) (FormatFloat : ℚ → String) (ctx : CallContext)
    (ns : NotificationService) (table : FCMTokenTable) (event : FrigateEvent)
    (client : MessagingClient)
    (hclient : ns.firebaseClient = some ⟨some ⟨some client⟩⟩)
    (hallow : ShouldSendNotification env event = true)
    (hfresh : isDebounced ns ctx.now (debounceKey event) = false)
    (hfind : ctx.findFault = false)
    (hactive : ∃ t ∈ table, t.IsActive = true) :
    (SendNotification env FormatFloat ctx ns table event).attempted ≠ [] ∧
    ((SendNotification env FormatFloat ctx ns table event).panicked = false →
      (SendNotification env FormatFloat ctx ns table event).err = none ∧
      (SendNotification env FormatFloat ctx ns table event).ns
        = markAsSent ns ctx.sentAt (debounceKey event)) := by
  have htokens : (table.filter fun t => t.IsActive).map (fun t => t.Token) ≠ [] := by
    obtain ⟨t, ht, hact⟩ := hactive
    intro hnil
    have hmem : t ∈ table.filter fun t => t.IsActive := List.mem_filter.2 ⟨ht, hact⟩
    rw [List.map_eq_nil_iff] at hnil
    rw [hnil] at hmem
    cases hmem
  have hlen : ¬ (table.filter fun t => t.IsActive).length = 0 := by
    intro h0
    exact htokens (by rw [List.length_eq_zero.1 h0]; rfl)
  obtain ⟨herr, hatt⟩ := SendMulticastNotification_configured client _
    (GenerateNotificationContent FormatFloat event).1
    (GenerateNotificationContent FormatFloat event).2.1
    (GenerateNotificationContent FormatFloat event).2.2 htokens
  simp only [SendNotification, hallow, hfresh, hfind, hlen, hclient, Bool.not_true,
    Bool.false_eq_true, if_false]
  cases hp : (SendMulticastNotification (some ⟨some ⟨some client⟩⟩)
      ((table.filter fun t => t.IsActive).map fun t => t.Token)
      (GenerateNotificationContent FormatFloat event).1
      (GenerateNotificationContent FormatFloat event).2.1
      (GenerateNotificationContent FormatFloat event).2.2).panicked
  · simp only [Bool.false_eq_true, if_false, herr]
    exact ⟨hatt, fun _ => ⟨trivial, trivial⟩⟩
  · simp only [if_true]
    exact ⟨hatt, fun h => by cases h⟩

/-- A debounced call does nothing. -/
theorem SendNotification_debounced (env : Env) (FormatFloat : ℚ → String) (ctx : CallContext)
    (ns : NotificationService) (table : FCMTokenTable) (event : FrigateEvent)
    (h : isDebounced ns ctx.now (debounceKey event) = true) :
    (SendNotification env FormatFloat ctx ns table event).attempted = [] ∧
    (SendNotification env FormatFloat ctx ns table event).err = none ∧
    (SendNotification env FormatFloat ctx ns table event).panicked = false ∧
    (SendNotification env FormatFloat ctx ns table event).table = table ∧
    (SendNotification env FormatFloat ctx ns table event).ns = ns := by
  unfold SendNotification
  cases ha : ShouldSendNotification env event <;> simp [h]

theorem debounceKey_data (event : FrigateEvent) :
    (debounceKey event).data = event.After.ID.data ++ (Char.ofNat 95 :: event.type.data) := by
  simp [debounceKey, String.data_append]

theorem debounceKey_congr (e1 e2 : FrigateEvent) (hid : e1.After.ID = e2.After.ID)
    (htype : e1.type = e2.type) : debounceKey e1 = debounceKey e2 := by
  simp [debounceKey, hid, htype]

/-- C9. Two calls for events with the same `After.ID` and `Type` that pass the
allow-list, on a service with a configured transport, each finding an active
token; the first call is not itself debounced and returns.  Then the first call
returns no error and sends.  If the second call checks the debounce cache less
than the window after the send recorded by the first, it sends nothing,
returns no error and leaves the registrations alone: one dispatch in all.  If
it checks once the window has passed, it sends again: two dispatches.  Sweeps
of the cache between the two calls do not change this. -/
theorem C9_debounce_window (env : Env) (FormatFloat : ℚ → String) (ctx1 ctx2 : CallContext)
    (sweeps : List Int) (ns : NotificationService) (table1 table2 : FCMTokenTable)
    (e1 e2 : FrigateEvent) (client : MessagingClient)
    (hclient : ns.firebaseClient = some ⟨some ⟨some client⟩⟩)
    (hallow1 : ShouldSendNotification env e1 = true)
    (hallow2 : ShouldSendNotification env e2 = true)
    (hid : e1.After.ID = e2.After.ID) (htype : e1.type = e2.type)
    (hactive1 : ∃ t ∈ table1, t.IsActive = true)
    (hactive2 : ∃ t ∈ table2, t.IsActive = true)
    (hfind1 : ctx1.findFault = false) (hfind2 : ctx2.findFault = false)
    (hfresh : isDebounced ns ctx1.now (debounceKey e1) = false)
    (hreturn : (SendNotification env FormatFloat ctx1 ns table1 e1).panicked = false)
    (hsweeps : ∀ t ∈ sweeps, t ≤ ctx2.now) :
    (twoCalls env FormatFloat ctx1 ctx2 sweeps ns table1 table2 e1 e2).1.err = none ∧
    (twoCalls env FormatFloat ctx1 ctx2 sweeps ns table1 table2 e1 e2).1.attempted ≠ [] ∧
    (ctx2.now - ctx1.sentAt < ns.debounceDuration →
      (twoCalls env FormatFloat ctx1 ctx2 sweeps ns table1 table2 e1 e2).2.attempted = [] ∧
      (twoCalls env FormatFloat ctx1 ctx2 sweeps ns table1 table2 e1 e2).2.err = none ∧
      (twoCalls env FormatFloat ctx1 ctx2 sweeps ns table1 table2 e1 e2).2.panicked = false ∧
      (twoCalls env FormatFloat ctx1 ctx2 sweeps ns table1 table2 e1 e2).2.table = table2) ∧
    (ns.debounceDuration ≤ ctx2.now - ctx1.sentAt →
      (twoCalls env FormatFloat ctx1 ctx2 sweeps ns table1 table2 e1 e2).2.attempted ≠ []) := by
  obtain ⟨hatt1, hrest⟩ := SendNotification_dispatches env FormatFloat ctx1 ns table1 e1 client
    hclient hallow1 hfresh hfind1 hactive1
  obtain ⟨herr1, hns1⟩ := hrest hreturn
  have hkey : debounceKey e2 = debounceKey e1 := (debounceKey_congr e1 e2 hid htype).symm
  have hcheck : isDebounced
      (sweepAll (SendNotification env FormatFloat ctx1 ns table1 e1).ns sweeps) ctx2.now
      (debounceKey e2) = decide (ctx2.now - ctx1.sentAt < ns.debounceDuration) := by
    rw [isDebounced_sweepAll _ _ _ _ hsweeps, hns1, hkey, isDebounced_markAsSent_same]
  simp only [twoCalls]
  refine ⟨herr1, hatt1, ?_, ?_⟩
  · intro hw
    have hdeb := hcheck.trans (decide_eq_true hw)
    obtain ⟨h1, h2, h3, h4, _⟩ := SendNotification_debounced env FormatFloat ctx2 _ table2 e2 hdeb
    exact ⟨h1, h2, h3, h4⟩
  · intro hw
    have hdeb := hcheck.trans (decide_eq_false (not_lt.2 hw))
    have hclient2 : (sweepAll (SendNotification env FormatFloat ctx1 ns table1 e1).ns
        sweeps).firebaseClient = some ⟨some ⟨some client⟩⟩ := by
      rw [(sweepAll_fields _ _).2, hns1]
      exact hclient
    exact (SendNotification_dispatches env FormatFloat ctx2 _ table2 e2 client hclient2
      hallow2 hdeb hfind2 hactive2).1

theorem C9_witness :
    (twoCalls sampleEnv sampleFormat firstCallContext callAfterTenSeconds [] sampleService
      sampleTable sampleTable evt1 evt1).1.attempted ≠ [] ∧
    (twoCalls sampleEnv sampleFormat firstCallContext callAfterTenSeconds [] sampleService
      sampleTable sampleTable evt1 evt1).2.attempted = [] ∧
    (twoCalls sampleEnv sampleFormat firstCallContext callAfterFortySeconds [31000000000]
      sampleService sampleTable sampleTable evt1 evt1).2.attempted ≠ [] :=
  ⟨(C9_debounce_window sampleEnv sampleFormat firstCallContext callAfterTenSeconds []
      sampleService sampleTable sampleTable evt1 evt1 acceptAll rfl (by decide) (by decide)
      rfl rfl (by decide) (by decide) rfl rfl (by decide) (by decide) (by decide)).2.1,
    ((C9_debounce_window sampleEnv sampleFormat firstCallContext callAfterTenSeconds []
      sampleService sampleTable sampleTable evt1 evt1 acceptAll rfl (by decide) (by decide)
      rfl rfl (by decide) (by decide) rfl rfl (by decide) (by decide) (by decide)).2.2.1
        (by decide)).1,
    (C9_debounce_window sampleEnv sampleFormat firstCallContext callAfterFortySeconds
      [31000000000] sampleService sampleTable sampleTable evt1 evt1 acceptAll rfl (by decide)
      (by decide) rfl rfl (by decide) (by decide) rfl rfl (by decide) (by decide)
      (by decide)).2.2.2 (by decide)⟩

/-- C10. For events whose type is "new", "update" or "end", the debounce key
`After.ID + "_" + Type` is the same for two events exactly when their ids and
their types are the same, whatever characters the ids contain; hence marking
the key of one event as sent leaves the debounce answer for any event of
another id or another type as it was. -/
theorem C10_debounce_key_identifies_pair (e1 e2 : FrigateEvent)
    (h1 : e1.type = EventTypeNew ∨ e1.type = EventTypeUpdate ∨ e1.type = EventTypeEnd)
    (h2 : e2.type = EventTypeNew ∨ e2.type = EventTypeUpdate ∨ e2.type = EventTypeEnd) :
    (debounceKey e1 = debounceKey e2 ↔ e1.After.ID = e2.After.ID ∧ e1.type = e2.type) ∧
    (¬ (e1.After.ID = e2.After.ID ∧ e1.type = e2.type) →
      ∀ (ns : NotificationService) (sentAt now : Int),
        isDebounced (markAsSent ns sentAt (debounceKey e1)) now (debounceKey e2)
          = isDebounced ns now (debounceKey e2)) := by
  have hinj : debounceKey e1 = debounceKey e2 → e1.After.ID = e2.After.ID ∧ e1.type = e2.type := by
    intro h
    have hd := congrArg String.data h
    rw [debounceKey_data, debounceKey_data] at hd
    have hr := congrArg List.reverse hd
    simp only [List.reverse_append, List.reverse_cons] at hr
    rcases h1 with h1 | h1 | h1 <;> rcases h2 with h2 | h2 | h2 <;>
      rw [h1, h2] at hr ⊢ <;>
      simp [EventTypeNew, EventTypeUpdate, EventTypeEnd] at hr ⊢ <;>
      exact String.ext (by simpa using hr)
  refine ⟨⟨hinj, fun h => debounceKey_congr e1 e2 h.1 h.2⟩, ?_⟩
  intro hne ns sentAt now
  exact isDebounced_markAsSent_other ns sentAt now _ _ (fun h => hne (hinj h.symm))

theorem C10_witness :
    debounceKey evt1 ≠ debounceKey evt1End ∧
    isDebounced (markAsSent sampleService 0 (debounceKey evt1)) 1 (debounceKey evt1End)
      = isDebounced sampleService 1 (debounceKey evt1End) :=
  ⟨fun h => absurd
      ((C10_debounce_key_identifies_pair evt1 evt1End (Or.inl rfl) (Or.inr (Or.inr rfl))).1.1 h).2
      (by decide),
    (C10_debounce_key_identifies_pair evt1 evt1End (Or.inl rfl) (Or.inr (Or.inr rfl))).2
      (fun h => absurd h.2 (by decide)) sampleService 0 1⟩

/-! ## Properties of the push dispatcher -/

/-- Without a short token whose send fails, the loop makes one `Send` call per
token, in list order, and collects the tokens whose send failed. -/
theorem sendLoop_returns (client : MessagingClient) (title body : String)
    (data : List (String × String)) (tokens : List String)
    (h : ∀ token ∈ tokens, failsShort client title body data token = false) :
    sendLoop client title body data tokens
      = (tokens.map (messageFor title body data),
         some (tokens.filter (sendFails client title body data))) := by
  induction tokens with
  | nil => rfl
  | cons token rest ih =>
    have hrest := ih (fun t ht => h t (List.mem_cons_of_mem _ ht))
    have htok := h token (List.mem_cons_self _ _)
    simp only [failsShort, sendFails, messageFor, Bool.and_eq_false_iff,
      decide_eq_false_iff_not, not_not, not_lt] at htok
    simp only [sendLoop, hrest, List.map_cons, List.filter_cons, sendFails, messageFor]
    by_cases hs : client.Send { Token := token, Title := title, Body := body, Data := data }
        = SendResult.sent
    · simp [hs, messageFor]
    · rcases htok with htok | htok
      · exact absurd htok hs
      · have hnlt : ¬ token.utf8ByteSize < 20 := by omega
        simp [hs, hnlt, messageFor]

/-- The loop panics exactly when some token is short and its send fails. -/
theorem sendLoop_panics_iff (client : MessagingClient) (title body : String)
    (data : List (String × String)) (tokens : List String) :
    (sendLoop client title body data tokens).2 = none ↔
      ∃ token ∈ tokens, failsShort client title body data token = true := by
  induction tokens with
  | nil => simp [sendLoop]
  | cons token rest ih =>
    simp only [sendLoop, List.mem_cons, exists_eq_or_imp]
    by_cases hs : client.Send { Token := token, Title := title, Body := body, Data := data }
        = SendResult.sent
    · simp only [hs, if_true]
      rw [ih]
      simp [failsShort, sendFails, messageFor, hs]
    · simp only [hs, if_false]
      by_cases hlen : token.utf8ByteSize < 20
      · simp [hlen, failsShort, sendFails, messageFor, hs]
      · simp only [hlen, if_false, Option.map_eq_none']
        rw [ih]
        simp [failsShort, sendFails, messageFor, hs, hlen]

theorem SendMulticastNotification_run (client : MessagingClient) (tokens : List String)
    (title body : String) (data : List (String × String)) (hne : tokens ≠ []) :
    SendMulticastNotification (configured client) tokens title body data
      = ⟨(sendLoop client title body data tokens).1,
          (sendLoop client title body data tokens).2.isNone,
          (sendLoop client title body data tokens).2.getD [], none⟩ := by
  have hlen : ¬ tokens.length = 0 := fun h => hne (List.length_eq_zero.1 h)
  simp only [SendMulticastNotification, configured, hlen, if_false]
  rcases hloop : sendLoop client title body data tokens with ⟨att, _ | inv⟩ <;> rfl

/-- A run that returns has made one `Send` call per token, in list order, and
returns the tokens whose send failed, in list order. -/
theorem SendMulticastNotification_returns (client : MessagingClient) (tokens : List String)
    (title body : String) (data : List (String × String)) (hne : tokens ≠ [])
    (hret : (SendMulticastNotification (configured client) tokens title body data).panicked
      = false) :
    SendMulticastNotification (configured client) tokens title body data
      = ⟨tokens.map (messageFor title body data), false,
          tokens.filter (sendFails client title body data), none⟩ := by
  rw [SendMulticastNotification_run client tokens title body data hne] at hret ⊢
  have hall : ∀ token ∈ tokens, failsShort client title body data token = false := by
    intro token ht
    cases hf : failsShort client title body data token
    · rfl
    · have hnone := (sendLoop_panics_iff client title body data tokens).2 ⟨token, ht, hf⟩
      simp [hnone] at hret
  rw [sendLoop_returns client title body data tokens hall]
  rfl

/-- C11, at the failing input. The list holds a token of 11 bytes followed by a
token of 27 bytes and the transport refuses the first.  The failed send takes
`token[:20]` for its log line and the call panics: one `Send` call was made,
the second token is never tried, nothing is returned. -/
theorem C11_short_token_aborts_batch :
    (SendMulticastNotification (configured rejectShort) [shortToken, longToken] "title" "body"
      []).panicked = true ∧
    (SendMulticastNotification (configured rejectShort) [shortToken, longToken] "title" "body"
      []).attempted = [messageFor "title" "body" [] shortToken] ∧
    messageFor "title" "body" [] longToken ∉
      (SendMulticastNotification (configured rejectShort) [shortToken, longToken] "title" "body"
        []).attempted := by
  decide

/-- C12, at the failing input. One token of 27 bytes and a transport that is
out of reach: the send fails for a transient reason, nothing is reported as
permanently invalid, the call returns, and the token is in the returned list
of invalid tokens. -/
theorem C12_transient_failure_is_returned_invalid :
    outOfReach.Send (messageFor "title" "body" [] longToken) ≠ SendResult.permanentlyInvalid ∧
    (SendMulticastNotification (configured outOfReach) [longToken] "title" "body" []).panicked
      = false ∧
    longToken ∈
      (SendMulticastNotification (configured outOfReach) [longToken] "title" "body"
        []).invalidTokens := by
  decide

/-- What the loop returns: for a configured transport, a non-empty token list
and a call that returns, the returned list is the input list restricted to the
tokens whose send failed: it contains a token exactly when the token is in the
input and its send failed, permanently or for a transient reason. -/
theorem SendMulticastNotification_returns_failed_tokens (client : MessagingClient) (tokens : List String)
    (title body : String) (data : List (String × String)) (hne : tokens ≠ [])
    (hret : (SendMulticastNotification (configured client) tokens title body data).panicked
      = false) :
    (SendMulticastNotification (configured client) tokens title body data).invalidTokens
      = tokens.filter (fun token =>
          decide (client.Send (messageFor title body data token) ≠ SendResult.sent)) ∧
    ∀ token, token ∈
        (SendMulticastNotification (configured client) tokens title body data).invalidTokens ↔
      token ∈ tokens ∧
        (client.Send (messageFor title body data token) = SendResult.permanentlyInvalid ∨
         client.Send (messageFor title body data token) = SendResult.transientFailure) := by
  rw [SendMulticastNotification_returns client tokens title body data hne hret]
  refine ⟨rfl, ?_⟩
  intro token
  simp only [List.mem_filter, sendFails, decide_eq_true_eq]
  constructor
  · rintro ⟨ht, hf⟩
    refine ⟨ht, ?_⟩
    cases hs : client.Send (messageFor title body data token)
    · exact absurd hs hf
    · exact Or.inl rfl
    · exact Or.inr rfl
  · rintro ⟨ht, hf | hf⟩ <;> exact ⟨ht, by rw [hf]; decide⟩

theorem SendMulticastNotification_returns_failed_tokens_example :
    (SendMulticastNotification (configured rejectOther) [longToken, otherToken] "title" "body"
      []).invalidTokens
      = [longToken, otherToken].filter (fun token =>
          decide (rejectOther.Send (messageFor "title" "body" [] token) ≠ SendResult.sent)) :=
  (SendMulticastNotification_returns_failed_tokens rejectOther [longToken, otherToken] "title" "body" []
    (by decide) (by decide)).1

/-- C13 as stated fails: with a configured transport, an empty token list is
answered with an error. -/
theorem C13_empty_list_counterexample :
    configured acceptAll = some ⟨some ⟨some acceptAll⟩⟩ ∧
    (SendMulticastNotification (configured acceptAll) [] "title" "body" []).err
      = some FirebaseError.noTokens :=
  ⟨rfl, by decide⟩

/-- C13, amended. `SendMulticastNotification` gives an error exactly when the
client or its app is nil, the token list is empty, or the messaging client
cannot be obtained; with an error no send was attempted; and a call that
returns, whatever the number of failed sends, returns a sub-list of its
tokens. -/
theorem C13_error_cases (fc : Option FirebaseClient) (tokens : List String)
    (title body : String) (data : List (String × String)) :
    ((SendMulticastNotification fc tokens title body data).err ≠ none ↔
      fc = none ∨ (∃ c, fc = some c ∧ c.app = none) ∨ tokens = [] ∨
        ∃ c app, fc = some c ∧ c.app = some app ∧ app.Messaging = none) ∧
    ((SendMulticastNotification fc tokens title body data).err ≠ none →
      (SendMulticastNotification fc tokens title body data).attempted = [] ∧
      (SendMulticastNotification fc tokens title body data).panicked = false) ∧
    ((SendMulticastNotification fc tokens title body data).panicked = false →
      (SendMulticastNotification fc tokens title body data).invalidTokens.Sublist tokens) := by
  cases fc with
  | none => simp [SendMulticastNotification]
  | some c =>
    obtain ⟨app⟩ := c
    cases app with
    | none => simp [SendMulticastNotification]
    | some app =>
      obtain ⟨messaging⟩ := app
      by_cases hne : tokens = []
      · subst hne
        simp [SendMulticastNotification]
      · cases messaging with
        | none =>
          have hlen : ¬ tokens.length = 0 := fun h => hne (List.length_eq_zero.1 h)
          simp [SendMulticastNotification, hlen]
        | some client =>
          have hrun := SendMulticastNotification_run client tokens title body data hne
          simp only [configured] at hrun
          refine ⟨?_, ?_, ?_⟩
          · rw [hrun]
            simp [hne]
          · rw [hrun]
            simp
          · intro hret
            have hfull := SendMulticastNotification_returns client tokens title body data hne hret
            simp only [configured] at hfull
            rw [hfull]
            exact List.filter_sublist _

/-- With distinct tokens in the table, a row's token is among the failed tokens
of the batch exactly when the row is active and its own send failed. -/
theorem mem_failed_tokens (client : MessagingClient) (title body : String)
    (data : List (String × String)) (table : FCMTokenTable)
    (hunique : (table.map fun t => t.Token).Nodup) (t : FCMToken) (ht : t ∈ table) :
    t.Token ∈ ((table.filter fun t => t.IsActive).map fun t => t.Token).filter
        (sendFails client title body data)
      ↔ t.IsActive = true ∧ sendFails client title body data t.Token = true := by
  simp only [List.mem_filter, List.mem_map]
  constructor
  · rintro ⟨⟨a, ⟨ha, hact⟩, htok⟩, hf⟩
    have hat : a = t := List.inj_on_of_nodup_map hunique ha ht htok
    subst hat
    exact ⟨hact, hf⟩
  · rintro ⟨hact, hf⟩
    exact ⟨⟨t, ⟨ht, hact⟩, rfl⟩, hf⟩

/-- C14, at the failing input. One active registration and a transport that is
out of reach: no registration is reported as permanently invalid, and yet the
call returns without error having removed the only registration. -/
theorem C14_transient_failure_removes_registration :
    sampleTable.filter (isReportedInvalid outOfReach sampleFormat evt1) = [] ∧
    (SendNotification sampleEnv sampleFormat firstCallContext outOfReachService sampleTable
      evt1).err = none ∧
    (SendNotification sampleEnv sampleFormat firstCallContext outOfReachService sampleTable
      evt1).panicked = false ∧
    (SendNotification sampleEnv sampleFormat firstCallContext outOfReachService sampleTable
      evt1).table = [] ∧
    (SendNotification sampleEnv sampleFormat firstCallContext outOfReachService sampleTable
      evt1).table
      ≠ sampleTable.filter (fun t => !isReportedInvalid outOfReach sampleFormat evt1 t) := by
  decide

/-- What the call removes: a call of `SendNotification` that passes the
allow-list and the debounce check, whose token query and `DELETE` succeed and
which returns, on a table with distinct tokens and a configured transport: the
table afterwards is the table before without the active rows whose send
failed, permanently or for a transient reason; every other row, active or
inactive, is kept as it was and in place. -/
theorem SendNotification_removes_failed_registrations (env : Env) (FormatFloat : ℚ → String)
    (ctx : CallContext) (ns : NotificationService) (table : FCMTokenTable)
    (event : FrigateEvent) (client : MessagingClient)
    (hclient : ns.firebaseClient = configured client)
    (hallow : ShouldSendNotification env event = true)
    (hfresh : isDebounced ns ctx.now (debounceKey event) = false)
    (hfind : ctx.findFault = false) (hdelete : ctx.deleteFault = false)
    (hunique : (table.map fun t => t.Token).Nodup)
    (hret : (SendNotification env FormatFloat ctx ns table event).panicked = false) :
    (SendNotification env FormatFloat ctx ns table event).table
      = table.filter (fun t => !isFailedRegistration client FormatFloat event t) := by
  by_cases hlen : (table.filter fun t => t.IsActive).length = 0
  · have hnone : ∀ t ∈ table, t.IsActive = false := by
      intro t ht
      cases hact : t.IsActive
      · rfl
      · have hmem : t ∈ table.filter fun t => t.IsActive := List.mem_filter.2 ⟨ht, hact⟩
        rw [List.length_eq_zero.1 hlen] at hmem
        cases hmem
    simp only [SendNotification, hallow, hfresh, hfind, hlen, Bool.not_true,
      Bool.false_eq_true, if_false, if_true]
    symm
    apply List.filter_eq_self.2
    intro t ht
    simp [isFailedRegistration, hnone t ht]
  · have hne : ((table.filter fun t => t.IsActive).map fun t => t.Token) ≠ [] := by
      intro h
      exact hlen (by rw [List.map_eq_nil_iff.1 h]; rfl)
    simp only [SendNotification, hallow, hfresh, hfind, hlen, hclient, Bool.not_true,
      Bool.false_eq_true, if_false] at hret ⊢
    have hp : (SendMulticastNotification (configured client)
        ((table.filter fun t => t.IsActive).map fun t => t.Token)
        (GenerateNotificationContent FormatFloat event).1
        (GenerateNotificationContent FormatFloat event).2.1
        (GenerateNotificationContent FormatFloat event).2.2).panicked = false := by
      cases hp : (SendMulticastNotification (configured client)
        ((table.filter fun t => t.IsActive).map fun t => t.Token)
        (GenerateNotificationContent FormatFloat event).1
        (GenerateNotificationContent FormatFloat event).2.1
        (GenerateNotificationContent FormatFloat event).2.2).panicked
      · rfl
      · simp [hp] at hret
    rw [SendMulticastNotification_returns client _ _ _ _ hne hp]
    simp only [Bool.false_eq_true, if_false, hdelete, Bool.not_false, Bool.and_true]
    have hcongr : table.filter (fun t => !decide (t.Token ∈
          ((table.filter fun t => t.IsActive).map fun t => t.Token).filter
            (sendFails client (GenerateNotificationContent FormatFloat event).1
              (GenerateNotificationContent FormatFloat event).2.1
              (GenerateNotificationContent FormatFloat event).2.2)))
        = table.filter (fun t => !isFailedRegistration client FormatFloat event t) := by
      apply List.filter_congr
      intro t ht
      have hiff := mem_failed_tokens client (GenerateNotificationContent FormatFloat event).1
        (GenerateNotificationContent FormatFloat event).2.1
        (GenerateNotificationContent FormatFloat event).2.2 table hunique t ht
      by_cases hm : t.Token ∈ ((table.filter fun t => t.IsActive).map fun t => t.Token).filter
            (sendFails client (GenerateNotificationContent FormatFloat event).1
              (GenerateNotificationContent FormatFloat event).2.1
              (GenerateNotificationContent FormatFloat event).2.2)
      · have := hiff.1 hm
        simp [hm, isFailedRegistration, this.1, this.2]
      · have hnot : ¬ (t.IsActive = true ∧ sendFails client
            (GenerateNotificationContent FormatFloat event).1
            (GenerateNotificationContent FormatFloat event).2.1
            (GenerateNotificationContent FormatFloat event).2.2 t.Token = true) :=
          fun h => hm (hiff.2 h)
        simp only [hm, decide_False, Bool.not_false, isFailedRegistration]
        cases hact : t.IsActive
        · simp
        · cases hsf : sendFails client (GenerateNotificationContent FormatFloat event).1
            (GenerateNotificationContent FormatFloat event).2.1
            (GenerateNotificationContent FormatFloat event).2.2 t.Token
          · simp
          · exact absurd ⟨hact, hsf⟩ hnot
    split
    · exact hcongr
    · rename_i hz
      rw [← hcongr]
      have hnil : ((table.filter fun t => t.IsActive).map fun t => t.Token).filter
            (sendFails client (GenerateNotificationContent FormatFloat event).1
              (GenerateNotificationContent FormatFloat event).2.1
              (GenerateNotificationContent FormatFloat event).2.2) = [] := by
        apply List.length_eq_zero.1
        simpa using hz
      rw [hnil]
      simp

theorem SendNotification_removes_failed_registrations_example :
    (SendNotification sampleEnv sampleFormat firstCallContext rejectOtherService
      threeRegistrations evt1).table
      = threeRegistrations.filter
          (fun t => !isFailedRegistration rejectOther sampleFormat evt1 t) :=
  SendNotification_removes_failed_registrations sampleEnv sampleFormat firstCallContext
    rejectOtherService threeRegistrations evt1 rejectOther rfl (by decide) (by decide) rfl rfl
    (by decide) (by decide)

/-- C15. `ShouldSendNotification` is true exactly when the enabling variable is
"true", the event type is the trimmed form of an entry of the comma-separated
type list and the label is the trimmed form of an entry of the comma-separated
label list.  When it is false, `SendNotification` returns no error without
reading the debounce cache: no send, service (debounce cache included) and
registrations as they were. -/
theorem C15_allow_list_gate (env : Env) (event : FrigateEvent) :
    (ShouldSendNotification env event = true ↔
      env.FCM_NOTIFICATIONS_ENABLED = "true" ∧
      (∃ t ∈ Split env.FCM_NOTIFY_ON_EVENT_TYPE, TrimSpace t = event.type) ∧
      (∃ l ∈ Split env.FCM_NOTIFY_LABELS, TrimSpace l = event.After.Label)) ∧
    (ShouldSendNotification env event = false →
      ∀ (FormatFloat : ℚ → String) (ctx : CallContext) (ns : NotificationService)
        (table : FCMTokenTable),
        SendNotification env FormatFloat ctx ns table event = ⟨none, false, ns, table, []⟩) := by
  constructor
  · unfold ShouldSendNotification
    by_cases he : env.FCM_NOTIFICATIONS_ENABLED = "true"
    · simp only [he, ne_eq, not_true_eq_false, if_false, true_and]
      by_cases ht : (Split env.FCM_NOTIFY_ON_EVENT_TYPE).any
          (fun t => decide (TrimSpace t = event.type)) = true
      · by_cases hl : (Split env.FCM_NOTIFY_LABELS).any
            (fun l => decide (TrimSpace l = event.After.Label)) = true
        · simp only [ht, hl, Bool.not_true, Bool.false_eq_true, if_false, true_iff]
          simpa using And.intro ht hl
        · have hl2 := hl
          simp only [List.any_eq_true, decide_eq_true_eq] at hl2
          simp [ht, hl, hl2]
      · have ht2 := ht
        simp only [List.any_eq_true, decide_eq_true_eq] at ht2
        simp [ht, ht2]
    · simp [he]
  · intro h FormatFloat ctx ns table
    simp [SendNotification, h]

/-- C16. For every event the data of `GenerateNotificationContent` has the keys
camera, label, event_id, event_type and timestamp, each once and no other, with
camera = After.Camera, label = After.Label, event_id = After.ID, event_type =
Type and timestamp the formatted After.StartTime. -/
theorem C16_notification_data (FormatFloat : ℚ → String) (event : FrigateEvent) :
    (GenerateNotificationContent FormatFloat event).2.2.map Prod.fst
      = ["camera", "label", "event_id", "event_type", "timestamp"] ∧
    (GenerateNotificationContent FormatFloat event).2.2.lookup "camera"
      = some event.After.Camera ∧
    (GenerateNotificationContent FormatFloat event).2.2.lookup "label"
      = some event.After.Label ∧
    (GenerateNotificationContent FormatFloat event).2.2.lookup "event_id"
      = some event.After.ID ∧
    (GenerateNotificationContent FormatFloat event).2.2.lookup "event_type"
      = some event.type ∧
    (GenerateNotificationContent FormatFloat event).2.2.lookup "timestamp"
      = some (FormatFloat event.After.StartTime) := by
  refine ⟨rfl, ?_, ?_, ?_, ?_, ?_⟩ <;> rfl

/-! ## Properties of the session token cache -/

/-- C17. `Get` after `Set` of the same token returns the entry that was set;
`Get` after `Delete` of the same token returns absent; neither `Set` nor
`Delete` of a token changes what `Get` returns for another token. -/
theorem C17_token_store_laws (ts : TokenStore) (k k2 : String) (e : TokenInfo) (h : k2 ≠ k) :
    (ts.Set k e).Get k = some e ∧ (ts.Delete k).Get k = none ∧
    (ts.Set k e).Get k2 = ts.Get k2 ∧ (ts.Delete k).Get k2 = ts.Get k2 := by
  simp [TokenStore.Set, TokenStore.Get, TokenStore.Delete, h]

theorem C17_witness :
    ((NewTokenStore.Set "jwt-b" sessionB).Set "jwt-a" sessionA).Get "jwt-a" = some sessionA ∧
    ((NewTokenStore.Set "jwt-b" sessionB).Delete "jwt-a").Get "jwt-a" = none ∧
    ((NewTokenStore.Set "jwt-b" sessionB).Set "jwt-a" sessionA).Get "jwt-b"
      = (NewTokenStore.Set "jwt-b" sessionB).Get "jwt-b" ∧
    ((NewTokenStore.Set "jwt-b" sessionB).Delete "jwt-a").Get "jwt-b"
      = (NewTokenStore.Set "jwt-b" sessionB).Get "jwt-b" :=
  C17_token_store_laws (NewTokenStore.Set "jwt-b" sessionB) "jwt-a" "jwt-b" sessionA (by decide)

/-- C18. `CleanExpired` at time `now` removes an entry exactly when its
`ExpiresAt` is before `now`: an expired entry is absent afterwards, an entry
that is not expired is returned unchanged, and no entry appears. -/
theorem C18_clean_expired (ts : TokenStore) (now : Int) (k : String) :
    (∀ info, ts.Get k = some info → info.ExpiresAt < now →
      (ts.CleanExpired now).Get k = none) ∧
    (∀ info, ts.Get k = some info → ¬ info.ExpiresAt < now →
      (ts.CleanExpired now).Get k = some info) ∧
    (ts.Get k = none → (ts.CleanExpired now).Get k = none) ∧
    (∀ info, (ts.CleanExpired now).Get k = some info ↔
      ts.Get k = some info ∧ ¬ info.ExpiresAt < now) := by
  simp only [TokenStore.CleanExpired, TokenStore.Get]
  cases h : ts.tokens k with
  | none => simp
  | some i =>
    by_cases hexp : i.ExpiresAt < now
    · simp only [hexp, if_true]
      refine ⟨fun _ _ _ => trivial, ?_, ?_, ?_⟩
      · intro info hi hne
        cases hi
        exact absurd hexp hne
      · intro _
        trivial
      · intro info
        constructor
        · intro hc; cases hc
        · rintro ⟨hi, hne⟩
          cases hi
          exact absurd hexp hne
    · simp only [hexp, if_false]
      refine ⟨?_, fun info hi _ => hi, ?_, ?_⟩
      · intro info hi hlt
        cases hi
        exact absurd hlt hexp
      · intro hn
        exact hn
      · intro info
        constructor
        · intro hi
          cases hi
          exact ⟨rfl, hexp⟩
        · rintro ⟨hi, _⟩
          exact hi

/-! ## Properties of the credential refresh -/

theorem mem_saveFrigateConnect (table : List FrigateConnect) (fc : FrigateConnect) :
    fc ∈ saveFrigateConnect table fc := by
  unfold saveFrigateConnect
  split
  · rename_i h
    obtain ⟨r, hr, hid⟩ := List.any_eq_true.1 h
    simp only [decide_eq_true_eq] at hid
    exact List.mem_map.2 ⟨r, hr, by simp [hid]⟩
  · simp

/-- C19. A credential that is stale at the check (never verified, or verified
more than one hour before), whose token the upstream does not confirm (answer
false, or an error) and for which the upstream login returns a new token: the
record gets the new token and the time of the stamp, so that it needs no
verification at the time of the stamp nor within the hour after it; and when
`db.Save` succeeds the stored row is that record. -/
theorem C19_stale_credential_is_refreshed (NewFrigateClient : String → FrigateClient)
    (cx : RefreshContext) (table : List FrigateConnect) (user : User) (fc : FrigateConnect)
    (password newToken : String)
    (hstale : fc.LastVerifiedAt = none ∨
      ∃ t, fc.LastVerifiedAt = some t ∧ cx.checkedAt - t > Hour)
    (hverify : (NewFrigateClient fc.FrigateURL).VerifyToken fc.TokenCookie = some false ∨
      (NewFrigateClient fc.FrigateURL).VerifyToken fc.TokenCookie = none)
    (hlogin : (NewFrigateClient fc.FrigateURL).Login
      (if fc.FrigateUsername = "" then user.Username else fc.FrigateUsername) password
        = some newToken) :
    (verifyOrRefreshFrigateToken NewFrigateClient cx table user fc password).fc.TokenCookie
      = newToken ∧
    (verifyOrRefreshFrigateToken NewFrigateClient cx table user fc password).fc.LastVerifiedAt
      = some cx.stampedAt ∧
    (∀ now, now - cx.stampedAt ≤ Hour →
      (verifyOrRefreshFrigateToken NewFrigateClient cx table user fc
        password).fc.ShouldVerifyToken now = false) ∧
    (cx.saveFault = false →
      (verifyOrRefreshFrigateToken NewFrigateClient cx table user fc password).table
        = saveFrigateConnect table
            (verifyOrRefreshFrigateToken NewFrigateClient cx table user fc password).fc ∧
      (verifyOrRefreshFrigateToken NewFrigateClient cx table user fc password).fc ∈
        (verifyOrRefreshFrigateToken NewFrigateClient cx table user fc password).table) := by
  have hshould : fc.ShouldVerifyToken cx.checkedAt = true := by
    rcases hstale with h | ⟨t, h, hlt⟩
    · simp [FrigateConnect.ShouldVerifyToken, h]
    · simp [FrigateConnect.ShouldVerifyToken, h, hlt]
  have hrun : verifyOrRefreshFrigateToken NewFrigateClient cx table user fc password
      = ⟨{ fc with TokenCookie := newToken, LastVerifiedAt := some cx.stampedAt },
          if cx.saveFault then table
          else saveFrigateConnect table
            { fc with TokenCookie := newToken, LastVerifiedAt := some cx.stampedAt },
          [UpstreamCall.verify fc.TokenCookie,
            UpstreamCall.login
              (if fc.FrigateUsername = "" then user.Username else fc.FrigateUsername)
              password]⟩ := by
    unfold verifyOrRefreshFrigateToken
    rcases hverify with hv | hv <;> simp [hshould, hv, hlogin]
  rw [hrun]
  refine ⟨?_, ?_, ?_, ?_⟩
  · rfl
  · rfl
  · intro now hnow
    simp only [FrigateConnect.ShouldVerifyToken, decide_eq_false_iff_not, not_lt]
    exact hnow
  · intro hsave
    simp only [hsave, Bool.false_eq_true, if_false, true_and]
    exact mem_saveFrigateConnect _ _

theorem C19_witness :
    (verifyOrRefreshFrigateToken upstreamRenews twoHoursLater [aliceConnect] alice aliceConnect
      "secret").fc.TokenCookie = "T2" ∧
    (verifyOrRefreshFrigateToken upstreamRenews twoHoursLater [aliceConnect] alice aliceConnect
      "secret").fc.LastVerifiedAt = some twoHoursLater.stampedAt :=
  ⟨(C19_stale_credential_is_refreshed upstreamRenews twoHoursLater [aliceConnect] alice
      aliceConnect "secret" "T2" (Or.inr ⟨0, rfl, by decide⟩) (Or.inl rfl) rfl).1,
    (C19_stale_credential_is_refreshed upstreamRenews twoHoursLater [aliceConnect] alice
      aliceConnect "secret" "T2" (Or.inr ⟨0, rfl, by decide⟩) (Or.inl rfl) rfl).2.1⟩

/-- The answer and the session token store of `handleLocalUserLogin` depend on
the password check, the account, the signer, the two clock readings and the
token store only: neither the credentials table nor the upstream enter. -/
theorem handleLocalUserLogin_issues (CompareHashAndPassword : String → String → Bool)
    (NewFrigateClient : String → FrigateClient) (GenerateJWT : Claims → Option String)
    (cx : LoginContext) (table : List FrigateConnect) (tokenStore : TokenStore)
    (user : User) (req : LoginRequest) :
    ((handleLocalUserLogin CompareHashAndPassword NewFrigateClient GenerateJWT cx table
        tokenStore user req).response,
      (handleLocalUserLogin CompareHashAndPassword NewFrigateClient GenerateJWT cx table
        tokenStore user req).tokenStore)
      = if !CompareHashAndPassword user.Password req.Password then
          (Response.error 401 "Invalid credentials", tokenStore)
        else if !user.IsActive then (Response.error 403 "Account is inactive", tokenStore)
        else generateLocalToken GenerateJWT cx.claimsAt cx.storedAt tokenStore user := by
  unfold handleLocalUserLogin
  cases CompareHashAndPassword user.Password req.Password <;> cases user.IsActive <;> rfl

/-- C20. A credential that is stale at the check, whose token the upstream does
not confirm (answer false, or an error) and for which the upstream login fails
as well: `verifyOrRefreshFrigateToken` leaves the record, hence `TokenCookie`
and `LastVerifiedAt`, and the stored rows as they were.  `handleLocalUserLogin`
still issues the session token: for an accepted password and an active
account, when the signer returns a token for the claims of the user (id, name,
email, expiry 24 hours after the clock reading, in seconds), the answer is
"Login successful" with that token and the user, the token store holds under
that token the entry of the user expiring 24 hours after the clock reading, and
every other entry is as before; when the signer fails the answer is 500 and the
token store is as before.  The answer and the token store are the same as in
any other run with the same account, request and clock readings, whatever the
credentials table and the upstream are there (in particular with a credential
that needs no refresh). -/
theorem C20_refresh_fails_open (CompareHashAndPassword : String → String → Bool)
    (NewFrigateClient : String → FrigateClient) (GenerateJWT : Claims → Option String)
    (cx : LoginContext) (table : List FrigateConnect) (tokenStore : TokenStore)
    (user : User) (req : LoginRequest) (fc : FrigateConnect)
    (hquery : cx.connectFault = false) (hrow : findActiveConnect table user.ID = some fc)
    (hstale : fc.LastVerifiedAt = none ∨
      ∃ t, fc.LastVerifiedAt = some t ∧ cx.refresh.checkedAt - t > Hour)
    (hverify : (NewFrigateClient fc.FrigateURL).VerifyToken fc.TokenCookie = some false ∨
      (NewFrigateClient fc.FrigateURL).VerifyToken fc.TokenCookie = none)
    (hlogin : (NewFrigateClient fc.FrigateURL).Login
      (if fc.FrigateUsername = "" then user.Username else fc.FrigateUsername) req.Password
        = none) :
    (verifyOrRefreshFrigateToken NewFrigateClient cx.refresh table user fc req.Password).fc
      = fc ∧
    (verifyOrRefreshFrigateToken NewFrigateClient cx.refresh table user fc req.Password).table
      = table ∧
    (handleLocalUserLogin CompareHashAndPassword NewFrigateClient GenerateJWT cx table
      tokenStore user req).frigateConnects = table ∧
    (CompareHashAndPassword user.Password req.Password = true → user.IsActive = true →
      (∀ tokenString : String,
        GenerateJWT ⟨user.ID, user.Username, user.Email,
            (cx.claimsAt + 24 * 3600000000000) / 1000000000⟩ = some tokenString →
        (handleLocalUserLogin CompareHashAndPassword NewFrigateClient GenerateJWT cx table
          tokenStore user req).response
          = Response.loginSuccessful tokenString user.ID user.Username user.Email ∧
        (handleLocalUserLogin CompareHashAndPassword NewFrigateClient GenerateJWT cx table
          tokenStore user req).tokenStore.Get tokenString
          = some ⟨tokenString, cx.storedAt + 24 * 3600000000000, user.ID⟩ ∧
        ∀ other : String, other ≠ tokenString →
          (handleLocalUserLogin CompareHashAndPassword NewFrigateClient GenerateJWT cx table
            tokenStore user req).tokenStore.Get other = tokenStore.Get other) ∧
      (GenerateJWT ⟨user.ID, user.Username, user.Email,
            (cx.claimsAt + 24 * 3600000000000) / 1000000000⟩ = none →
        (handleLocalUserLogin CompareHashAndPassword NewFrigateClient GenerateJWT cx table
          tokenStore user req).response = Response.error 500 "Failed to generate token" ∧
        ∀ other : String,
          (handleLocalUserLogin CompareHashAndPassword NewFrigateClient GenerateJWT cx table
            tokenStore user req).tokenStore.Get other = tokenStore.Get other)) ∧
    (∀ (NewFrigateClient2 : String → FrigateClient) (refresh2 : RefreshContext)
        (connectFault2 : Bool) (table2 : List FrigateConnect),
      (handleLocalUserLogin CompareHashAndPassword NewFrigateClient2 GenerateJWT
          ⟨refresh2, connectFault2, cx.claimsAt, cx.storedAt⟩ table2 tokenStore user
          req).response
        = (handleLocalUserLogin CompareHashAndPassword NewFrigateClient GenerateJWT cx table
            tokenStore user req).response ∧
      (handleLocalUserLogin CompareHashAndPassword NewFrigateClient2 GenerateJWT
          ⟨refresh2, connectFault2, cx.claimsAt, cx.storedAt⟩ table2 tokenStore user
          req).tokenStore
        = (handleLocalUserLogin CompareHashAndPassword NewFrigateClient GenerateJWT cx table
            tokenStore user req).tokenStore) := by
  have hshould : fc.ShouldVerifyToken cx.refresh.checkedAt = true := by
    rcases hstale with h | ⟨t, h, hlt⟩
    · simp [FrigateConnect.ShouldVerifyToken, h]
    · simp [FrigateConnect.ShouldVerifyToken, h, hlt]
  have hrun : verifyOrRefreshFrigateToken NewFrigateClient cx.refresh table user fc req.Password
      = ⟨fc, table, [UpstreamCall.verify fc.TokenCookie,
          UpstreamCall.login
            (if fc.FrigateUsername = "" then user.Username else fc.FrigateUsername)
            req.Password]⟩ := by
    unfold verifyOrRefreshFrigateToken
    rcases hverify with hv | hv <;> simp [hshould, hv, hlogin]
  refine ⟨by rw [hrun], by rw [hrun], ?_, ?_, ?_⟩
  · unfold handleLocalUserLogin
    cases CompareHashAndPassword user.Password req.Password <;> cases user.IsActive <;>
      simp [hquery, hrow, hrun]
  · intro hpw hact
    have hissue := handleLocalUserLogin_issues CompareHashAndPassword NewFrigateClient
      GenerateJWT cx table tokenStore user req
    simp only [hpw, hact, Bool.not_true, Bool.false_eq_true, if_false] at hissue
    have hresp := congrArg Prod.fst hissue
    have hstore := congrArg Prod.snd hissue
    simp only at hresp hstore
    constructor
    · intro tokenString hsign
      rw [hresp, hstore]
      simp only [generateLocalToken, Hour, hsign]
      refine ⟨trivial, ?_, ?_⟩
      · simp [TokenStore.Get, TokenStore.Set]
      · intro other hne
        simp [TokenStore.Get, TokenStore.Set, hne]
    · intro hsign
      rw [hresp, hstore]
      simp only [generateLocalToken, Hour, hsign]
      exact ⟨trivial, fun _ => trivial⟩
  · intro NewFrigateClient2 refresh2 connectFault2 table2
    have h1 := handleLocalUserLogin_issues CompareHashAndPassword NewFrigateClient2 GenerateJWT
      ⟨refresh2, connectFault2, cx.claimsAt, cx.storedAt⟩ table2 tokenStore user req
    have h2 := handleLocalUserLogin_issues CompareHashAndPassword NewFrigateClient GenerateJWT
      cx table tokenStore user req
    have h3 := h1.trans h2.symm
    exact ⟨congrArg Prod.fst h3, congrArg Prod.snd h3⟩

theorem C20_witness :
    (verifyOrRefreshFrigateToken upstreamDown loginTwoHoursLater.refresh [aliceConnect] alice
      aliceConnect aliceLogin.Password).fc = aliceConnect ∧
    (handleLocalUserLogin samplePasswordCheck upstreamDown sampleSigner loginTwoHoursLater
      [aliceConnect] NewTokenStore alice aliceLogin).frigateConnects = [aliceConnect] ∧
    (handleLocalUserLogin samplePasswordCheck upstreamDown sampleSigner loginTwoHoursLater
      [aliceConnect] NewTokenStore alice aliceLogin).response
      = Response.loginSuccessful "jwt-for-alice" 7 "alice" "" ∧
    (handleLocalUserLogin samplePasswordCheck upstreamDown sampleSigner loginTwoHoursLater
      [aliceConnect] NewTokenStore alice aliceLogin).tokenStore.Get "jwt-for-alice"
      = some ⟨"jwt-for-alice", loginTwoHoursLater.storedAt + 24 * 3600000000000, 7⟩ :=
  ⟨(C20_refresh_fails_open samplePasswordCheck upstreamDown sampleSigner loginTwoHoursLater
      [aliceConnect] NewTokenStore alice aliceLogin aliceConnect rfl rfl
      (Or.inr ⟨0, rfl, by decide⟩) (Or.inr rfl) rfl).1,
    (C20_refresh_fails_open samplePasswordCheck upstreamDown sampleSigner loginTwoHoursLater
      [aliceConnect] NewTokenStore alice aliceLogin aliceConnect rfl rfl
      (Or.inr ⟨0, rfl, by decide⟩) (Or.inr rfl) rfl).2.2.1,
    (((C20_refresh_fails_open samplePasswordCheck upstreamDown sampleSigner loginTwoHoursLater
      [aliceConnect] NewTokenStore alice aliceLogin aliceConnect rfl rfl
      (Or.inr ⟨0, rfl, by decide⟩) (Or.inr rfl) rfl).2.2.2.1 (by decide) rfl).1
        "jwt-for-alice" rfl).1,
    (((C20_refresh_fails_open samplePasswordCheck upstreamDown sampleSigner loginTwoHoursLater
      [aliceConnect] NewTokenStore alice aliceLogin aliceConnect rfl rfl
      (Or.inr ⟨0, rfl, by decide⟩) (Or.inr rfl) rfl).2.2.2.1 (by decide) rfl).1
        "jwt-for-alice" rfl).2.1⟩

/-! ## The text functions behind the allow-lists -/

theorem splitComma_ne_nil (cs : List Char) : splitComma cs ≠ [] := by
  cases cs with
  | nil => simp [splitComma]
  | cons c cs =>
    simp only [splitComma]
    split
    · simp
    · split <;> simp

/-- The pieces of `strings.Split(s, ",")`, joined with commas, give `s` back,
and no piece contains a comma. -/
theorem splitComma_spec (cs : List Char) :
    joinComma (splitComma cs) = cs ∧ ∀ w ∈ splitComma cs, Char.ofNat 44 ∉ w := by
  induction cs with
  | nil => simp [splitComma, joinComma]
  | cons c cs ih =>
    obtain ⟨hjoin, hno⟩ := ih
    have hne := splitComma_ne_nil cs
    simp only [splitComma]
    by_cases hc : c = Char.ofNat 44
    · simp only [hc, if_true]
      obtain ⟨w, ws, hw⟩ := List.exists_cons_of_ne_nil hne
      rw [hw] at hjoin hno ⊢
      refine ⟨?_, ?_⟩
      · simp only [joinComma, List.nil_append, hjoin]
      · intro x hx
        rcases List.mem_cons.1 hx with rfl | hx
        · simp
        · exact hno x hx
    · simp only [hc, if_false]
      obtain ⟨w, ws, hw⟩ := List.exists_cons_of_ne_nil hne
      rw [hw] at hjoin hno ⊢
      refine ⟨?_, ?_⟩
      · cases ws with
        | nil => simpa [joinComma] using hjoin
        | cons v vs =>
          simp only [joinComma, List.cons_append] at hjoin ⊢
          rw [hjoin]
      · intro x hx
        rcases List.mem_cons.1 hx with rfl | hx
        · intro hmem
          rcases List.mem_cons.1 hmem with h | h
          · exact hc h.symm
          · exact hno w (List.mem_cons_self _ _) h
        · exact hno x (List.mem_cons_of_mem _ hx)

theorem head?_dropWhile_isSpace (l : List Char) (c : Char)
    (h : (l.dropWhile isSpace).head? = some c) : isSpace c = false := by
  induction l with
  | nil => simp at h
  | cons a as ih =>
    simp only [List.dropWhile_cons] at h
    by_cases ha : isSpace a = true
    · simp only [ha, if_true] at h
      exact ih h
    · simp only [ha, Bool.false_eq_true, if_false, List.head?_cons, Option.some.injEq] at h
      subst h
      simpa using ha

/-- The result of `strings.TrimSpace` is the text without a leading and a
trailing run of white space, and it neither starts nor ends with white space. -/
theorem TrimSpace_spec (s : String) :
    (∃ pre post, s.data = pre ++ (TrimSpace s).data ++ post ∧
      (∀ c ∈ pre, isSpace c = true) ∧ (∀ c ∈ post, isSpace c = true)) ∧
    (∀ c, (TrimSpace s).data.head? = some c → isSpace c = false) ∧
    (∀ c, (TrimSpace s).data.getLast? = some c → isSpace c = false) := by
  have hdata : (TrimSpace s).data
      = ((s.data.dropWhile isSpace).reverse.dropWhile isSpace).reverse := rfl
  have h1 := List.takeWhile_append_dropWhile isSpace s.data
  have h2 := List.takeWhile_append_dropWhile isSpace (s.data.dropWhile isSpace).reverse
  have h3 : s.data.dropWhile isSpace
      = ((s.data.dropWhile isSpace).reverse.dropWhile isSpace).reverse
        ++ ((s.data.dropWhile isSpace).reverse.takeWhile isSpace).reverse := by
    rw [← List.reverse_append, h2, List.reverse_reverse]
  refine ⟨⟨s.data.takeWhile isSpace,
    ((s.data.dropWhile isSpace).reverse.takeWhile isSpace).reverse, ?_, ?_, ?_⟩, ?_, ?_⟩
  · rw [hdata, List.append_assoc, ← h3, h1]
  · intro c hc
    exact List.mem_takeWhile_imp hc
  · intro c hc
    exact List.mem_takeWhile_imp (List.mem_reverse.1 hc)
  · intro c hc
    rw [hdata] at hc
    apply head?_dropWhile_isSpace s.data c
    rw [h3]
    cases hr : ((s.data.dropWhile isSpace).reverse.dropWhile isSpace).reverse with
    | nil => rw [hr] at hc; simp at hc
    | cons a as =>
      rw [hr] at hc
      simpa using hc
  · intro c hc
    rw [hdata, List.getLast?_reverse] at hc
    exact head?_dropWhile_isSpace _ c hc

/-! ## Properties settled on the definitions above: refresh, sweep, slices, sub-labels, allow-lists -/

/-- C25. A credential whose `LastVerifiedAt` is set and at most one hour before
the check needs no verification: `verifyOrRefreshFrigateToken` makes no
upstream call and leaves the record and the stored rows as they were.  A
credential never verified, or verified more than one hour before, needs
verification. -/
theorem C25_fresh_credential_is_left_alone (NewFrigateClient : String → FrigateClient)
    (cx : RefreshContext) (table : List FrigateConnect) (user : User) (fc : FrigateConnect)
    (password : String) :
    (∀ t, fc.LastVerifiedAt = some t → cx.checkedAt - t ≤ Hour →
      fc.ShouldVerifyToken cx.checkedAt = false ∧
      verifyOrRefreshFrigateToken NewFrigateClient cx table user fc password
        = ⟨fc, table, []⟩) ∧
    (fc.LastVerifiedAt = none → fc.ShouldVerifyToken cx.checkedAt = true) ∧
    (∀ t, fc.LastVerifiedAt = some t → cx.checkedAt - t > Hour →
      fc.ShouldVerifyToken cx.checkedAt = true) := by
  refine ⟨?_, ?_, ?_⟩
  · intro t ht hle
    have hs : fc.ShouldVerifyToken cx.checkedAt = false := by
      simp only [FrigateConnect.ShouldVerifyToken, ht, decide_eq_false_iff_not, not_lt]
      exact hle
    refine ⟨hs, ?_⟩
    simp [verifyOrRefreshFrigateToken, hs]
  · intro hn
    simp [FrigateConnect.ShouldVerifyToken, hn]
  · intro t ht hgt
    simp [FrigateConnect.ShouldVerifyToken, ht, hgt]

/-- C26. A sweep at time `now` removes an entry exactly when `now - lastSent`
exceeds the window, keeps every other entry with its time, adds none, and
leaves the answer of `isDebounced` at time `now` as it was, for every key. -/
theorem C26_sweep_purges_old_entries (ns : NotificationService) (now : Int) (key : String) :
    (∀ lastSent, ns.debounceCache key = some lastSent →
      now - lastSent > ns.debounceDuration →
      (cleanDebounceCache ns now).debounceCache key = none) ∧
    (∀ lastSent, ns.debounceCache key = some lastSent →
      ¬ now - lastSent > ns.debounceDuration →
      (cleanDebounceCache ns now).debounceCache key = some lastSent) ∧
    (ns.debounceCache key = none → (cleanDebounceCache ns now).debounceCache key = none) ∧
    isDebounced (cleanDebounceCache ns now) now key = isDebounced ns now key := by
  refine ⟨?_, ?_, ?_, isDebounced_cleanDebounceCache ns now now key (le_refl now)⟩
  · intro lastSent h hold
    simp [cleanDebounceCache, h, hold]
  · intro lastSent h hkeep
    simp [cleanDebounceCache, h, hkeep]
  · intro h
    simp [cleanDebounceCache, h]

/-- C27, at the failing inputs. A token of 11 bytes: `SendMulticastNotification`
panics when the send to it fails, and `FirebaseClient.SendNotification` panics
when the send to it succeeds; in both the `Send` call has been made and the
slice `token[:20]` of the log line is out of range. -/
theorem C27_short_token_slice_out_of_range :
    shortToken.utf8ByteSize = 11 ∧
    (SendMulticastNotification (configured rejectShort) [shortToken] "title" "body"
      []).panicked = true ∧
    (FirebaseClient.SendNotification (configured acceptAll) shortToken "title" "body"
      []).panicked = true ∧
    (FirebaseClient.SendNotification (configured acceptAll) shortToken "title" "body"
      []).attempted = [messageFor "title" "body" [] shortToken] := by
  decide

/-- C28. The `sub_label` that `SaveDetectionEvent` stores is the person name
that `extractPersonName` returns, for every decoded JSON value; and the
notification of an event is personalised exactly when the `sub_label` stored
for it is not empty: then title and body are the wording with that name ("new":
"检测到人脸" and camera, " 检测到：", name; "end": name, " 已离开" and camera,
" 检测结束"; otherwise the name and camera, " ", label), and when it is empty
they are the general wording ("new": "检测到人" and camera, " 检测到：", label;
"end": "人已离开" and camera, " 检测结束"; otherwise "人员更新" and camera, " ",
label). -/
theorem C28_sub_label_normalisations_agree (v : JSONValue) (FormatFloat : ℚ → String)
    (event : FrigateEvent) :
    parseSubLabel v = extractPersonName v ∧
    (newDetectionEvent event).SubLabel = extractPersonName event.After.SubLabel ∧
    ((newDetectionEvent event).SubLabel ≠ "" →
      (event.type = "new" →
        (GenerateNotificationContent FormatFloat event).1 = "检测到人脸" ∧
        (GenerateNotificationContent FormatFloat event).2.1
          = event.After.Camera ++ " 检测到：" ++ (newDetectionEvent event).SubLabel) ∧
      (event.type = "end" →
        (GenerateNotificationContent FormatFloat event).1
          = (newDetectionEvent event).SubLabel ++ " 已离开" ∧
        (GenerateNotificationContent FormatFloat event).2.1
          = event.After.Camera ++ " 检测结束") ∧
      (event.type ≠ "new" → event.type ≠ "end" →
        (GenerateNotificationContent FormatFloat event).1 = (newDetectionEvent event).SubLabel ∧
        (GenerateNotificationContent FormatFloat event).2.1
          = event.After.Camera ++ " " ++ event.After.Label)) ∧
    ((newDetectionEvent event).SubLabel = "" →
      (event.type = "new" →
        (GenerateNotificationContent FormatFloat event).1 = "检测到人" ∧
        (GenerateNotificationContent FormatFloat event).2.1
          = event.After.Camera ++ " 检测到：" ++ event.After.Label) ∧
      (event.type = "end" →
        (GenerateNotificationContent FormatFloat event).1 = "人已离开" ∧
        (GenerateNotificationContent FormatFloat event).2.1
          = event.After.Camera ++ " 检测结束") ∧
      (event.type ≠ "new" → event.type ≠ "end" →
        (GenerateNotificationContent FormatFloat event).1 = "人员更新" ∧
        (GenerateNotificationContent FormatFloat event).2.1
          = event.After.Camera ++ " " ++ event.After.Label)) := by
  have h : ∀ w : JSONValue, parseSubLabel w = extractPersonName w := by
    intro w
    cases w with
    | arr xs =>
      cases xs with
      | nil => rfl
      | cons x rest => cases x <;> rfl
    | _ => rfl
  have hstored : (newDetectionEvent event).SubLabel = extractPersonName event.After.SubLabel :=
    h _
  refine ⟨h v, hstored, ?_, ?_⟩
  · intro hname
    rw [hstored] at hname ⊢
    refine ⟨?_, ?_, ?_⟩
    · intro ht
      simp [GenerateNotificationContent, titleAndBody, hname, ht, EventTypeNew]
    · intro ht
      simp [GenerateNotificationContent, titleAndBody, hname, ht, EventTypeNew, EventTypeEnd]
    · intro hn he
      simp [GenerateNotificationContent, titleAndBody, hname, hn, he, EventTypeNew,
        EventTypeEnd]
  · intro hname
    rw [hstored] at hname
    refine ⟨?_, ?_, ?_⟩
    · intro ht
      simp [GenerateNotificationContent, titleAndBody, hname, ht, EventTypeNew]
    · intro ht
      simp [GenerateNotificationContent, titleAndBody, hname, ht, EventTypeNew, EventTypeEnd]
    · intro hn he
      simp [GenerateNotificationContent, titleAndBody, hname, hn, he, EventTypeNew,
        EventTypeEnd]

theorem C28_witness :
    (newDetectionEvent evt1Named).SubLabel = "John Smith" ∧
    (GenerateNotificationContent sampleFormat evt1Named).1 = "检测到人脸" ∧
    (GenerateNotificationContent sampleFormat evt1Named).2.1 = "front 检测到：John Smith" ∧
    (newDetectionEvent evt1).SubLabel = "" ∧
    (GenerateNotificationContent sampleFormat evt1).1 = "检测到人" ∧
    (GenerateNotificationContent sampleFormat evt1).2.1 = "front 检测到：person" :=
  ⟨rfl,
    (((C28_sub_label_normalisations_agree JSONValue.null sampleFormat evt1Named).2.2.1
      (by decide)).1 rfl).1,
    (((C28_sub_label_normalisations_agree JSONValue.null sampleFormat evt1Named).2.2.1
      (by decide)).1 rfl).2,
    rfl,
    (((C28_sub_label_normalisations_agree JSONValue.null sampleFormat evt1).2.2.2 rfl).1 rfl).1,
    (((C28_sub_label_normalisations_agree JSONValue.null sampleFormat evt1).2.2.2 rfl).1 rfl).2⟩

/-- With the event-type list unset, an event with a type is refused; with the
label list unset, an event with a label is refused. -/
theorem ShouldSendNotification_unset_list (env : Env) (event : FrigateEvent) :
    (env.FCM_NOTIFY_ON_EVENT_TYPE = "" → event.type ≠ "" →
      ShouldSendNotification env event = false) ∧
    (env.FCM_NOTIFY_LABELS = "" → event.After.Label ≠ "" →
      ShouldSendNotification env event = false) := by
  constructor
  · intro h hne
    have hs : (Split "").any (fun t => decide (TrimSpace t = event.type)) = false := by
      have : TrimSpace "" = "" := by decide
      simpa [Split, splitComma, this] using fun h => hne h.symm
    unfold ShouldSendNotification
    by_cases he : env.FCM_NOTIFICATIONS_ENABLED = "true" <;> simp [he, h, hs]
  · intro h hne
    have hs : (Split "").any (fun l => decide (TrimSpace l = event.After.Label)) = false := by
      have : TrimSpace "" = "" := by decide
      simpa [Split, splitComma, this] using fun h => hne h.symm
    unfold ShouldSendNotification
    by_cases he : env.FCM_NOTIFICATIONS_ENABLED = "true"
    · by_cases ht : (Split env.FCM_NOTIFY_ON_EVENT_TYPE).any
          (fun t => decide (TrimSpace t = event.type)) = true <;> simp [he, h, hs, ht]
    · simp [he]

/-- C30, at the failing inputs. The event-type list is unset and the event has
no type: `strings.Split` of the empty text gives one empty entry, which the
empty type equals, and the notification is allowed.  The same with both lists
unset and an event without type and label. -/
theorem C30_unset_list_allows_empty_type :
    Split "" = [""] ∧
    typeListUnset.FCM_NOTIFY_ON_EVENT_TYPE = "" ∧
    ShouldSendNotification typeListUnset untypedPersonEvent = true ∧
    ShouldSendNotification bothListsUnset zeroEvent = true := by
  decide

/-! ## Properties of the camera status -/

theorem visitStreams_eq (l : List (String × Go2RTCStream)) (seen : List String)
    (st : CameraStatus) :
    visitStreams l seen st =
      { OnlineCount := st.OnlineCount + ((firstVerdicts l seen).filter fun v => v.2).length
        OfflineCount := st.OfflineCount + ((firstVerdicts l seen).filter fun v => !v.2).length
        TotalCount := st.TotalCount
        OnlineList := st.OnlineList ++ ((firstVerdicts l seen).filter fun v => v.2).map Prod.fst
        OfflineList :=
          st.OfflineList ++ ((firstVerdicts l seen).filter fun v => !v.2).map Prod.fst } := by
  induction l generalizing seen st with
  | nil => simp [visitStreams, firstVerdicts]
  | cons e rest ih =>
    obtain ⟨streamName, streamData⟩ := e
    simp only [visitStreams, firstVerdicts]
    by_cases hseen : cameraNameOf streamName ∈ seen
    · simp only [hseen, if_true]
      exact ih seen st
    · simp only [hseen, if_false]
      by_cases hp : streamData.Producers.length > 0
      · simp only [hp, if_true, ih, decide_True, List.filter_cons, Bool.not_true,
          Bool.false_eq_true, if_false, List.length_cons, List.map_cons, List.append_assoc,
          List.singleton_append]
        congr 1
        omega
      · simp only [hp, if_false, ih, decide_False, List.filter_cons, Bool.not_false,
          Bool.false_eq_true, if_true, List.length_cons, List.map_cons, List.append_assoc,
          List.singleton_append]
        congr 1
        omega

theorem firstVerdicts_mem (l : List (String × Go2RTCStream)) (seen : List String)
    (c : String) (b : Bool) (h : (c, b) ∈ firstVerdicts l seen) :
    c ∉ seen ∧ ∃ e ∈ l, cameraNameOf e.1 = c ∧ b = decide (e.2.Producers.length > 0) := by
  induction l generalizing seen with
  | nil => simp [firstVerdicts] at h
  | cons e rest ih =>
    obtain ⟨streamName, streamData⟩ := e
    simp only [firstVerdicts] at h
    by_cases hseen : cameraNameOf streamName ∈ seen
    · simp only [hseen, if_true] at h
      obtain ⟨hc, e, he, hcam⟩ := ih seen h
      exact ⟨hc, e, List.mem_cons_of_mem _ he, hcam⟩
    · simp only [hseen, if_false, List.mem_cons, Prod.mk.injEq] at h
      rcases h with ⟨hc, hb⟩ | h
      · subst hc
        exact ⟨hseen, (streamName, streamData), List.mem_cons_self _ _, rfl, hb⟩
      · obtain ⟨hc, e, he, hcam⟩ := ih _ h
        exact ⟨fun hin => hc (List.mem_cons_of_mem _ hin), e, List.mem_cons_of_mem _ he, hcam⟩

theorem firstVerdicts_names (l : List (String × Go2RTCStream)) (seen : List String)
    (c : String) :
    c ∈ (firstVerdicts l seen).map Prod.fst ↔
      c ∉ seen ∧ ∃ e ∈ l, cameraNameOf e.1 = c := by
  induction l generalizing seen with
  | nil => simp [firstVerdicts]
  | cons e rest ih =>
    obtain ⟨streamName, streamData⟩ := e
    simp only [firstVerdicts]
    by_cases hseen : cameraNameOf streamName ∈ seen
    · simp only [hseen, if_true, ih, List.mem_cons, exists_eq_or_imp]
      constructor
      · rintro ⟨hc, h⟩
        exact ⟨hc, Or.inr h⟩
      · rintro ⟨hc, h | h⟩
        · exact absurd (h ▸ hseen) hc
        · exact ⟨hc, h⟩
    · simp only [hseen, if_false, List.map_cons, List.mem_cons, ih, exists_eq_or_imp]
      constructor
      · rintro (h | ⟨hc, h⟩)
        · subst h
          exact ⟨hseen, Or.inl rfl⟩
        · exact ⟨fun hin => hc (Or.inr hin), Or.inr h⟩
      · rintro ⟨hc, h | h⟩
        · exact Or.inl h.symm
        · by_cases heq : c = cameraNameOf streamName
          · exact Or.inl heq
          · refine Or.inr ⟨?_, h⟩
            rintro (h1 | h1)
            · exact heq h1
            · exact hc h1

theorem firstVerdicts_nodup (l : List (String × Go2RTCStream)) (seen : List String) :
    ((firstVerdicts l seen).map Prod.fst).Nodup := by
  induction l generalizing seen with
  | nil => simp [firstVerdicts]
  | cons e rest ih =>
    obtain ⟨streamName, streamData⟩ := e
    simp only [firstVerdicts]
    by_cases hseen : cameraNameOf streamName ∈ seen
    · simp only [hseen, if_true]
      exact ih seen
    · simp only [hseen, if_false, List.map_cons, List.nodup_cons]
      refine ⟨?_, ih _⟩
      intro hin
      exact ((firstVerdicts_names rest _ _).1 hin).1 (List.mem_cons_self _ _)

theorem cameraStatusOf_eq (streams : List (String × Go2RTCStream)) :
    cameraStatusOf streams =
      { OnlineCount := ((firstVerdicts streams []).filter fun v => v.2).length
        OfflineCount := ((firstVerdicts streams []).filter fun v => !v.2).length
        TotalCount := ((firstVerdicts streams []).filter fun v => v.2).length
          + ((firstVerdicts streams []).filter fun v => !v.2).length
        OnlineList := ((firstVerdicts streams []).filter fun v => v.2).map Prod.fst
        OfflineList := ((firstVerdicts streams []).filter fun v => !v.2).map Prod.fst } := by
  simp [cameraStatusOf, visitStreams_eq]

theorem verdicts_split_perm (V : List (String × Bool)) :
    ((V.filter fun v => v.2).map Prod.fst ++ (V.filter fun v => !v.2).map Prod.fst).Perm
      (V.map Prod.fst) := by
  rw [← List.map_append]
  exact (List.filter_append_perm (fun v => v.2) V).map Prod.fst

theorem mem_verdict_names (V : List (String × Bool)) (c : String) :
    (c ∈ (V.filter fun v => v.2).map Prod.fst ↔ (c, true) ∈ V) ∧
    (c ∈ (V.filter fun v => !v.2).map Prod.fst ↔ (c, false) ∈ V) := by
  constructor
  · constructor
    · intro h
      obtain ⟨⟨c2, b⟩, hv, hc⟩ := List.mem_map.1 h
      obtain ⟨hmem, hb⟩ := List.mem_filter.1 hv
      have hb2 : b = true := hb
      have hc2 : c2 = c := hc
      rw [hb2, hc2] at hmem
      exact hmem
    · intro h
      exact List.mem_map.2 ⟨(c, true), List.mem_filter.2 ⟨h, rfl⟩, rfl⟩
  · constructor
    · intro h
      obtain ⟨⟨c2, b⟩, hv, hc⟩ := List.mem_map.1 h
      obtain ⟨hmem, hb⟩ := List.mem_filter.1 hv
      have hb2 : b = false := by simpa using hb
      have hc2 : c2 = c := hc
      rw [hb2, hc2] at hmem
      exact hmem
    · intro h
      exact List.mem_map.2 ⟨(c, false), List.mem_filter.2 ⟨h, rfl⟩, rfl⟩

/-- A camera listed online has a stream with a producer, a camera listed
offline has a stream without one, and the cameras listed are the cameras of
the streams. -/
theorem mem_online_iff (streams : List (String × Go2RTCStream)) (c : String) :
    (c ∈ (cameraStatusOf streams).OnlineList →
      ∃ e ∈ streams, cameraNameOf e.1 = c ∧ e.2.Producers ≠ []) ∧
    (c ∈ (cameraStatusOf streams).OfflineList →
      ∃ e ∈ streams, cameraNameOf e.1 = c ∧ e.2.Producers = []) ∧
    ((c ∈ (cameraStatusOf streams).OnlineList ∨ c ∈ (cameraStatusOf streams).OfflineList) ↔
      ∃ e ∈ streams, cameraNameOf e.1 = c) := by
  have hon : c ∈ (cameraStatusOf streams).OnlineList ↔ (c, true) ∈ firstVerdicts streams [] := by
    rw [cameraStatusOf_eq]
    exact (mem_verdict_names _ c).1
  have hoff : c ∈ (cameraStatusOf streams).OfflineList
      ↔ (c, false) ∈ firstVerdicts streams [] := by
    rw [cameraStatusOf_eq]
    exact (mem_verdict_names _ c).2
  rw [hon, hoff]
  refine ⟨?_, ?_, ?_⟩
  · intro hmem
    obtain ⟨_, e, he, hcam, hprod⟩ := firstVerdicts_mem streams [] c true hmem
    refine ⟨e, he, hcam, ?_⟩
    have hpos := of_decide_eq_true hprod.symm
    intro hnil
    rw [hnil] at hpos
    exact absurd hpos (by decide)
  · intro hmem
    obtain ⟨_, e, he, hcam, hprod⟩ := firstVerdicts_mem streams [] c false hmem
    refine ⟨e, he, hcam, ?_⟩
    have hnpos := of_decide_eq_false hprod.symm
    exact List.length_eq_zero.1 (by omega)
  · constructor
    · rintro (hmem | hmem)
      · obtain ⟨_, e, he, hcam, _⟩ := firstVerdicts_mem streams [] c true hmem
        exact ⟨e, he, hcam⟩
      · obtain ⟨_, e, he, hcam, _⟩ := firstVerdicts_mem streams [] c false hmem
        exact ⟨e, he, hcam⟩
    · intro h
      have hin : c ∈ (firstVerdicts streams []).map Prod.fst :=
        (firstVerdicts_names streams [] c).2 ⟨List.not_mem_nil c, h⟩
      obtain ⟨⟨c2, b⟩, hmem, hc⟩ := List.mem_map.1 hin
      have hc2 : c2 = c := hc
      rw [hc2] at hmem
      cases b
      · exact Or.inr hmem
      · exact Or.inl hmem

/-- No camera is listed twice. -/
theorem cameraStatusOf_nodup (streams : List (String × Go2RTCStream)) :
    ((cameraStatusOf streams).OnlineList ++ (cameraStatusOf streams).OfflineList).Nodup := by
  rw [cameraStatusOf_eq]
  exact (verdicts_split_perm (firstVerdicts streams [])).nodup_iff.2
    (firstVerdicts_nodup streams [])

/-- `TotalCount` is the number of distinct camera names. -/
theorem cameraStatusOf_total (streams : List (String × Go2RTCStream)) :
    (cameraStatusOf streams).TotalCount
      = ((streams.map fun e => cameraNameOf e.1).dedup).length := by
  have hp2 : ((firstVerdicts streams []).map Prod.fst).Perm
      ((streams.map fun e => cameraNameOf e.1).dedup) := by
    apply (List.perm_ext_iff_of_nodup (firstVerdicts_nodup streams [])
      (List.nodup_dedup _)).2
    intro c
    rw [firstVerdicts_names, List.mem_dedup, List.mem_map]
    simp
  rw [cameraStatusOf_eq]
  have hlen := ((verdicts_split_perm (firstVerdicts streams [])).trans hp2).length_eq
  simp only [List.length_append, List.length_map] at hlen
  exact hlen

theorem cameraStatusOf_counts (streams : List (String × Go2RTCStream)) :
    (cameraStatusOf streams).OnlineCount = (cameraStatusOf streams).OnlineList.length ∧
    (cameraStatusOf streams).OfflineCount = (cameraStatusOf streams).OfflineList.length := by
  rw [cameraStatusOf_eq]
  simp

/-- When the streams of each camera agree on having a producer, a camera is
listed online exactly when a stream of it has a producer, and offline exactly
when a stream of it has none. -/
theorem mem_lists_of_agree (streams : List (String × Go2RTCStream))
    (hagree : ∀ e ∈ streams, ∀ e2 ∈ streams, cameraNameOf e.1 = cameraNameOf e2.1 →
      (e.2.Producers = [] ↔ e2.2.Producers = [])) (c : String) :
    (c ∈ (cameraStatusOf streams).OnlineList ↔
      ∃ e ∈ streams, cameraNameOf e.1 = c ∧ e.2.Producers ≠ []) ∧
    (c ∈ (cameraStatusOf streams).OfflineList ↔
      ∃ e ∈ streams, cameraNameOf e.1 = c ∧ e.2.Producers = []) := by
  obtain ⟨hon, hoff, hall⟩ := mem_online_iff streams c
  constructor
  · refine ⟨hon, ?_⟩
    rintro ⟨e, he, hcam, hne⟩
    rcases hall.2 ⟨e, he, hcam⟩ with h | h
    · exact h
    · obtain ⟨e2, he2, hcam2, hnil⟩ := hoff h
      exact absurd ((hagree e2 he2 e he (hcam2.trans hcam.symm)).1 hnil) hne
  · refine ⟨hoff, ?_⟩
    rintro ⟨e, he, hcam, hnil⟩
    rcases hall.2 ⟨e, he, hcam⟩ with h | h
    · obtain ⟨e2, he2, hcam2, hne⟩ := hon h
      exact absurd ((hagree e he e2 he2 (hcam.trans hcam2.symm)).1 hnil) hne
    · exact h

/-- When the streams of each camera agree on having a producer, the visiting
order does not matter: two orders of the same entries give the same counts and
the same cameras in each list. -/
theorem cameraStatusOf_order_independent (l1 l2 : List (String × Go2RTCStream))
    (hperm : l1.Perm l2)
    (hagree : ∀ e ∈ l1, ∀ e2 ∈ l1, cameraNameOf e.1 = cameraNameOf e2.1 →
      (e.2.Producers = [] ↔ e2.2.Producers = [])) :
    (cameraStatusOf l1).OnlineList.Perm (cameraStatusOf l2).OnlineList ∧
    (cameraStatusOf l1).OfflineList.Perm (cameraStatusOf l2).OfflineList ∧
    (cameraStatusOf l1).OnlineCount = (cameraStatusOf l2).OnlineCount ∧
    (cameraStatusOf l1).OfflineCount = (cameraStatusOf l2).OfflineCount ∧
    (cameraStatusOf l1).TotalCount = (cameraStatusOf l2).TotalCount := by
  have hagree2 : ∀ e ∈ l2, ∀ e2 ∈ l2, cameraNameOf e.1 = cameraNameOf e2.1 →
      (e.2.Producers = [] ↔ e2.2.Producers = []) :=
    fun e he e2 he2 h => hagree e (hperm.mem_iff.2 he) e2 (hperm.mem_iff.2 he2) h
  have hon : (cameraStatusOf l1).OnlineList.Perm (cameraStatusOf l2).OnlineList := by
    apply (List.perm_ext_iff_of_nodup (cameraStatusOf_nodup l1).of_append_left
      (cameraStatusOf_nodup l2).of_append_left).2
    intro c
    rw [(mem_lists_of_agree l1 hagree c).1, (mem_lists_of_agree l2 hagree2 c).1]
    constructor
    · rintro ⟨e, he, h⟩
      exact ⟨e, hperm.mem_iff.1 he, h⟩
    · rintro ⟨e, he, h⟩
      exact ⟨e, hperm.mem_iff.2 he, h⟩
  have hoff : (cameraStatusOf l1).OfflineList.Perm (cameraStatusOf l2).OfflineList := by
    apply (List.perm_ext_iff_of_nodup (cameraStatusOf_nodup l1).of_append_right
      (cameraStatusOf_nodup l2).of_append_right).2
    intro c
    rw [(mem_lists_of_agree l1 hagree c).2, (mem_lists_of_agree l2 hagree2 c).2]
    constructor
    · rintro ⟨e, he, h⟩
      exact ⟨e, hperm.mem_iff.1 he, h⟩
    · rintro ⟨e, he, h⟩
      exact ⟨e, hperm.mem_iff.2 he, h⟩
  have hc1 := cameraStatusOf_counts l1
  have hc2 := cameraStatusOf_counts l2
  have ht1 : (cameraStatusOf l1).TotalCount
      = (cameraStatusOf l1).OnlineCount + (cameraStatusOf l1).OfflineCount := by
    simp [cameraStatusOf]
  have ht2 : (cameraStatusOf l2).TotalCount
      = (cameraStatusOf l2).OnlineCount + (cameraStatusOf l2).OfflineCount := by
    simp [cameraStatusOf]
  have h1 : (cameraStatusOf l1).OnlineCount = (cameraStatusOf l2).OnlineCount := by
    rw [hc1.1, hc2.1]; exact hon.length_eq
  have h2 : (cameraStatusOf l1).OfflineCount = (cameraStatusOf l2).OfflineCount := by
    rw [hc1.2, hc2.2]; exact hoff.length_eq
  exact ⟨hon, hoff, h1, h2, by rw [ht1, ht2, h1, h2]⟩

/-- C23 as stated fails, whichever way the two streams of camera "cam" are
visited: the plain stream is idle and the WebRTC stream is live, and the camera
is listed once, so one of the two streams does not contribute its camera to the
list the claim names. -/
theorem C23_disagreeing_streams_counterexample :
    ¬ ((∀ e ∈ camPlainFirst, e.2.Producers ≠ [] →
          cameraNameOf e.1 ∈ (cameraStatusOf camPlainFirst).OnlineList) ∧
        (∀ e ∈ camPlainFirst, e.2.Producers = [] →
          cameraNameOf e.1 ∈ (cameraStatusOf camPlainFirst).OfflineList)) ∧
    ¬ ((∀ e ∈ camWebRTCFirst, e.2.Producers ≠ [] →
          cameraNameOf e.1 ∈ (cameraStatusOf camWebRTCFirst).OnlineList) ∧
        (∀ e ∈ camWebRTCFirst, e.2.Producers = [] →
          cameraNameOf e.1 ∈ (cameraStatusOf camWebRTCFirst).OfflineList)) := by
  decide

/-- C23, amended. Every camera, that is every stream name without the suffix
`_WebRTC`, is listed exactly once, online or offline; a camera listed online
has a stream with a producer and a camera listed offline has a stream without
one, so a camera all of whose streams have producers is online and a camera
none of whose streams has one is offline; the counts are the lengths of the
lists and `TotalCount` is their sum, the number of distinct camera names. -/
theorem C23_camera_status (streams : List (String × Go2RTCStream)) :
    (cameraStatusOf streams).TotalCount
      = (cameraStatusOf streams).OnlineCount + (cameraStatusOf streams).OfflineCount ∧
    (cameraStatusOf streams).OnlineCount = (cameraStatusOf streams).OnlineList.length ∧
    (cameraStatusOf streams).OfflineCount = (cameraStatusOf streams).OfflineList.length ∧
    (cameraStatusOf streams).TotalCount
      = ((streams.map fun e => cameraNameOf e.1).dedup).length ∧
    ((cameraStatusOf streams).OnlineList ++ (cameraStatusOf streams).OfflineList).Nodup ∧
    (∀ c, (c ∈ (cameraStatusOf streams).OnlineList ∨
        c ∈ (cameraStatusOf streams).OfflineList) ↔ ∃ e ∈ streams, cameraNameOf e.1 = c) ∧
    (∀ c ∈ (cameraStatusOf streams).OnlineList,
      ∃ e ∈ streams, cameraNameOf e.1 = c ∧ e.2.Producers ≠ []) ∧
    (∀ c ∈ (cameraStatusOf streams).OfflineList,
      ∃ e ∈ streams, cameraNameOf e.1 = c ∧ e.2.Producers = []) ∧
    (∀ e ∈ streams,
      (∀ e2 ∈ streams, cameraNameOf e2.1 = cameraNameOf e.1 → e2.2.Producers ≠ []) →
      cameraNameOf e.1 ∈ (cameraStatusOf streams).OnlineList) ∧
    (∀ e ∈ streams,
      (∀ e2 ∈ streams, cameraNameOf e2.1 = cameraNameOf e.1 → e2.2.Producers = []) →
      cameraNameOf e.1 ∈ (cameraStatusOf streams).OfflineList) := by
  have hnodup := cameraStatusOf_nodup streams
  have htotal := cameraStatusOf_total streams
  refine ⟨?_, ?_, ?_, htotal, hnodup, fun c => (mem_online_iff streams c).2.2,
    fun c hc => (mem_online_iff streams c).1 hc,
    fun c hc => (mem_online_iff streams c).2.1 hc, ?_, ?_⟩
  · simp [cameraStatusOf]
  · rw [cameraStatusOf_eq]; simp
  · rw [cameraStatusOf_eq]; simp
  · intro e he hall
    rcases (mem_online_iff streams (cameraNameOf e.1)).2.2.2 ⟨e, he, rfl⟩ with h | h
    · exact h
    · obtain ⟨e2, he2, hcam, hnil⟩ := (mem_online_iff streams (cameraNameOf e.1)).2.1 h
      exact absurd hnil (hall e2 he2 hcam)
  · intro e he hall
    rcases (mem_online_iff streams (cameraNameOf e.1)).2.2.2 ⟨e, he, rfl⟩ with h | h
    · obtain ⟨e2, he2, hcam, hne⟩ := (mem_online_iff streams (cameraNameOf e.1)).1 h
      exact absurd (hall e2 he2 hcam) hne
    · exact h

/-- C29, at the failing input. The map holds "cam" without producer and
"cam_WebRTC" with one.  Visited in one order the camera is counted offline, in
the other order online: the counts and the lists differ for the same map. -/
theorem C29_visiting_order_changes_status :
    camPlainFirst.Perm camWebRTCFirst ∧
    (camPlainFirst.map Prod.fst).Nodup ∧
    cameraStatusOf camPlainFirst = ⟨0, 1, 1, [], ["cam"]⟩ ∧
    cameraStatusOf camWebRTCFirst = ⟨1, 0, 1, ["cam"], []⟩ ∧
    (cameraStatusOf camPlainFirst).OnlineCount ≠ (cameraStatusOf camWebRTCFirst).OnlineCount :=
  ⟨List.Perm.swap _ _ _, by decide, by decide, by decide, by decide⟩

/-! ## Properties of the broker client -/

theorem runCalls_calls (mc : MQTTClient) (calls : List MQTTCall) :
    (runCalls mc calls).1.map Prod.fst = calls := by
  induction calls generalizing mc with
  | nil => rfl
  | cons call rest ih => simp [runCalls, ih]

/-- The flag at the end of a sequence of calls: a successful `Connect` has
happened since the last `Disconnect`, or the client was connected before the
sequence and the sequence holds no `Disconnect`. -/
theorem runCalls_connected (mc : MQTTClient) (calls : List MQTTCall) :
    (runCalls mc calls).2.connected
      = (connectedSince (runCalls mc calls).1 ||
          (mc.connected && calls.all fun c => !isDisconnect c)) := by
  induction calls generalizing mc with
  | nil => simp [runCalls, connectedSince]
  | cons call rest ih =>
    have hall : ((runCalls (mc.perform call).client rest).1.all fun p => !isDisconnect p.1)
        = rest.all fun c => !isDisconnect c := by
      have h := runCalls_calls (mc.perform call).client rest
      conv_rhs => rw [← h]
      generalize (runCalls (mc.perform call).client rest).1 = trace
      induction trace with
      | nil => rfl
      | cons p ps ihp => simp only [List.all_cons, List.map_cons, ihp]
    simp only [runCalls, connectedSince, List.all_cons, ih, hall]
    cases call with
    | Connect tokenError =>
      cases hc : mc.connected <;> cases tokenError <;>
        simp [MQTTClient.perform, MQTTClient.Connect, hc, isSuccessfulConnect, isDisconnect]
    | Subscribe tokenError =>
      cases hc : mc.connected <;> cases tokenError <;>
        simp [MQTTClient.perform, MQTTClient.Subscribe, hc, isSuccessfulConnect, isDisconnect]
    | Disconnect =>
      cases hc : mc.connected <;>
        simp [MQTTClient.perform, MQTTClient.Disconnect, hc, isSuccessfulConnect, isDisconnect]

/-- C21. After any sequence of `Connect`, `Subscribe` and `Disconnect` calls on
a new client, with any outcomes of the handshakes: `Connect` returns an error
exactly when the client is connected already or the handshake fails, and then
leaves the flag as it was; the flag is set exactly when a successful `Connect`
has happened since the start or since the last `Disconnect`; and `Subscribe`
returns the error "not connected" exactly when no such `Connect` has
happened. -/
theorem C21_connection_state (env : MQTTEnv) (config : MQTTConfig) (calls : List MQTTCall)
    (tokenError : Option String) :
    (((runCalls (NewMQTTClient env config) calls).2.Connect tokenError).err ≠ none ↔
      (runCalls (NewMQTTClient env config) calls).2.connected = true ∨ tokenError ≠ none) ∧
    (((runCalls (NewMQTTClient env config) calls).2.Connect tokenError).err ≠ none →
      ((runCalls (NewMQTTClient env config) calls).2.Connect tokenError).client.connected
        = (runCalls (NewMQTTClient env config) calls).2.connected) ∧
    ((runCalls (NewMQTTClient env config) calls).2.connected
      = connectedSince (runCalls (NewMQTTClient env config) calls).1) ∧
    (((runCalls (NewMQTTClient env config) calls).2.Subscribe tokenError).err
        = some MQTTError.notConnected ↔
      connectedSince (runCalls (NewMQTTClient env config) calls).1 = false) := by
  have hflag : (runCalls (NewMQTTClient env config) calls).2.connected
      = connectedSince (runCalls (NewMQTTClient env config) calls).1 := by
    rw [runCalls_connected]
    simp [NewMQTTClient]
  refine ⟨?_, ?_, hflag, ?_⟩
  · cases hc : (runCalls (NewMQTTClient env config) calls).2.connected <;> cases tokenError <;>
      simp [MQTTClient.Connect, hc]
  · cases hc : (runCalls (NewMQTTClient env config) calls).2.connected <;> cases tokenError <;>
      simp [MQTTClient.Connect, hc]
  · rw [← hflag]
    cases hc : (runCalls (NewMQTTClient env config) calls).2.connected <;> cases tokenError <;>
      simp [MQTTClient.Subscribe, hc]

/-- C22. After `Disconnect` the client is not connected; a second `Disconnect`
returns the client as the first left it and makes no call on the transport;
and `Disconnect` on a client that is not connected changes nothing and makes
no call on the transport. -/
theorem C22_disconnect_is_idempotent (mc : MQTTClient) :
    mc.Disconnect.client.connected = false ∧
    mc.Disconnect.client.Disconnect.client = mc.Disconnect.client ∧
    mc.Disconnect.client.Disconnect.transport = [] ∧
    (mc.connected = false → mc.Disconnect.client = mc ∧ mc.Disconnect.transport = []) ∧
    (mc.connected = true → mc.Disconnect.transport = [TransportCall.disconnect 250]) := by
  cases hc : mc.connected <;> simp [MQTTClient.Disconnect, hc]

/-- C24 as stated fails: the client as `NewMQTTClient` builds it has neither
service set; for a payload that decodes, the handler runs the callback only:
no event-store step and no notification step, the event table stays empty and
nothing is sent, although the event is of a kind that `SaveDetectionEvent`
stores and `SendNotification` sends. -/
theorem C24_no_services_counterexample :
    sampleUnmarshal "evt1" = some evt1 ∧
    (NewMQTTClient ⟨"", "", "", ""⟩ ⟨"", "", "", "", "", ""⟩).eventService = false ∧
    (messageHandler sampleUnmarshal sampleEnv sampleFormat noFaults firstCallContext
      (NewMQTTClient ⟨"", "", "", ""⟩ ⟨"", "", "", "", "", ""⟩) [] sampleTable "evt1").steps
      = [HandlerStep.onMessage] ∧
    (messageHandler sampleUnmarshal sampleEnv sampleFormat noFaults firstCallContext
      (NewMQTTClient ⟨"", "", "", ""⟩ ⟨"", "", "", "", "", ""⟩) [] sampleTable "evt1").events
      = [] ∧
    (messageHandler sampleUnmarshal sampleEnv sampleFormat noFaults firstCallContext
      (NewMQTTClient ⟨"", "", "", ""⟩ ⟨"", "", "", "", "", ""⟩) [] sampleTable "evt1").attempted
      = [] ∧
    (SaveDetectionEvent noFaults [] evt1).2 = [newDetectionEvent evt1] ∧
    (SendNotification sampleEnv sampleFormat firstCallContext sampleService sampleTable
      evt1).attempted ≠ [] :=
  ⟨rfl, rfl, by decide, by decide, by decide, by decide, by decide⟩

/-- C24, amended. A payload that decodes: the handler runs `SaveDetectionEvent`
when the event service is set, then the callback when there is one, then
`SendNotification` when the notification service is set, in this order.
Whatever statements of the save fail, the notification step sends the same
messages and leaves the same client, debounce cache included, and the same
registrations as when the save succeeds, namely those of `SendNotification`
for the event, and a failed save leaves the event table as it was.  Without an
event service the event table is as it was; without a notification service
nothing is sent and client and registrations are as they were.  A payload that
does not decode changes nothing and sends nothing. -/
theorem C24_handler_steps (Unmarshal : String → Option FrigateEvent) (env : Env)
    (FormatFloat : ℚ → String) (faults : DbFaults) (ctx : CallContext) (mc : MQTTClient)
    (events : EventStore) (tokens : FCMTokenTable) (payload : String) :
    (∀ event, Unmarshal payload = some event →
      (mc.eventService = true →
        (messageHandler Unmarshal env FormatFloat faults ctx mc events tokens payload).events
          = (SaveDetectionEvent faults events event).2 ∧
        ((SaveDetectionEvent faults events event).1 ≠ none →
          (messageHandler Unmarshal env FormatFloat faults ctx mc events tokens payload).events
            = events)) ∧
      (mc.eventService = false →
        (messageHandler Unmarshal env FormatFloat faults ctx mc events tokens payload).events
          = events) ∧
      (∀ notificationSvc, mc.notificationService = some notificationSvc →
        (messageHandler Unmarshal env FormatFloat faults ctx mc events tokens payload).attempted
          = (SendNotification env FormatFloat ctx notificationSvc tokens event).attempted ∧
        (messageHandler Unmarshal env FormatFloat faults ctx mc events tokens payload).tokens
          = (SendNotification env FormatFloat ctx notificationSvc tokens event).table ∧
        (messageHandler Unmarshal env FormatFloat faults ctx mc events tokens payload).client
          = { mc with
              notificationService :=
                some (SendNotification env FormatFloat ctx notificationSvc tokens event).ns } ∧
        ((SendNotification env FormatFloat ctx notificationSvc tokens event).panicked = false →
          (messageHandler Unmarshal env FormatFloat faults ctx mc events tokens payload).steps
            = (if mc.eventService then
                [HandlerStep.saveDetectionEvent (SaveDetectionEvent faults events event).1]
              else []) ++
              (if mc.onMessage then [HandlerStep.onMessage] else []) ++
              [HandlerStep.sendNotification
                (SendNotification env FormatFloat ctx notificationSvc tokens event).err])) ∧
      (mc.notificationService = none →
        (messageHandler Unmarshal env FormatFloat faults ctx mc events tokens payload).attempted
          = [] ∧
        (messageHandler Unmarshal env FormatFloat faults ctx mc events tokens payload).tokens
          = tokens ∧
        (messageHandler Unmarshal env FormatFloat faults ctx mc events tokens payload).client
          = mc ∧
        (messageHandler Unmarshal env FormatFloat faults ctx mc events tokens payload).steps
          = (if mc.eventService then
              [HandlerStep.saveDetectionEvent (SaveDetectionEvent faults events event).1]
            else []) ++
            (if mc.onMessage then [HandlerStep.onMessage] else []))) ∧
    (Unmarshal payload = none →
      (messageHandler Unmarshal env FormatFloat faults ctx mc events tokens payload).events
        = events ∧
      (messageHandler Unmarshal env FormatFloat faults ctx mc events tokens payload).tokens
        = tokens ∧
      (messageHandler Unmarshal env FormatFloat faults ctx mc events tokens payload).client
        = mc ∧
      (messageHandler Unmarshal env FormatFloat faults ctx mc events tokens payload).attempted
        = [] ∧
      (messageHandler Unmarshal env FormatFloat faults ctx mc events tokens payload).steps
        = []) := by
  constructor
  · intro event hdecode
    have hev : (messageHandler Unmarshal env FormatFloat faults ctx mc events tokens
        payload).events
        = if mc.eventService then (SaveDetectionEvent faults events event).2 else events := by
      simp only [messageHandler, hdecode]
      cases mc.notificationService <;> cases mc.eventService <;> rfl
    refine ⟨?_, ?_, ?_, ?_⟩
    · intro hevents
      have hsave : (messageHandler Unmarshal env FormatFloat faults ctx mc events tokens
          payload).events = (SaveDetectionEvent faults events event).2 := by
        rw [hev, hevents]; rfl
      refine ⟨hsave, ?_⟩
      intro herr
      rw [hsave]
      cases he : (SaveDetectionEvent faults events event).1 with
      | none => exact absurd he herr
      | some e => exact SaveDetectionEvent_error_keeps_store faults events event e he
    · intro hevents
      rw [hev, hevents]; rfl
    · intro notificationSvc hnotify
      refine ⟨?_, ?_, ?_, ?_⟩
      · simp [messageHandler, hdecode, hnotify]
      · simp [messageHandler, hdecode, hnotify]
      · simp [messageHandler, hdecode, hnotify]
      · intro hret
        cases hes : mc.eventService <;> simp [messageHandler, hdecode, hnotify, hret, hes]
    · intro hnotify
      refine ⟨?_, ?_, ?_, ?_⟩
      · simp [messageHandler, hdecode, hnotify]
      · simp [messageHandler, hdecode, hnotify]
      · simp [messageHandler, hdecode, hnotify]
      · cases hes : mc.eventService <;> simp [messageHandler, hdecode, hnotify, hes]
  · intro hdecode
    simp [messageHandler, hdecode]

theorem C24_witness :
    (messageHandler sampleUnmarshal sampleEnv sampleFormat createFault firstCallContext
      wiredClient [] sampleTable "evt1").attempted
      = (SendNotification sampleEnv sampleFormat firstCallContext sampleService sampleTable
          evt1).attempted ∧
    (messageHandler sampleUnmarshal sampleEnv sampleFormat createFault firstCallContext
      wiredClient [] sampleTable "evt1").events = [] ∧
    (messageHandler sampleUnmarshal sampleEnv sampleFormat createFault firstCallContext
      wiredClient [] sampleTable "not json").attempted = [] :=
  ⟨(((C24_handler_steps sampleUnmarshal sampleEnv sampleFormat createFault firstCallContext
      wiredClient [] sampleTable "evt1").1 evt1 rfl).2.2.1 sampleService rfl).1,
    (((C24_handler_steps sampleUnmarshal sampleEnv sampleFormat createFault firstCallContext
      wiredClient [] sampleTable "evt1").1 evt1 rfl).1 rfl).2 (by decide),
    ((C24_handler_steps sampleUnmarshal sampleEnv sampleFormat createFault firstCallContext
      wiredClient [] sampleTable "not json").2 rfl).2.2.2.1⟩

end Sotsukenn
